import Mathlib

/-!
Shallow embedding of the DynASM AArch64 encoding engine
(`compiler-x64.c`, second part: `dasm_a64` engine ported by Zenk Ju from
Mike Pall's DynASM).

Machine integers are modelled as follows:
* C `unsigned int` action words and emitted instruction words: `Nat`
  (truncated with `&&& 0xffffffff` exactly where C arithmetic wraps).
* C `int` / `long` values (buffer cells, offsets, variadic arguments):
  `Int`, with two's-complement bit operations made explicit through
  `tc64` / `landI` / `sar` below.  An argument is truncated to a signed
  32-bit `int` with `int32` exactly where the C code does `(int)l`.
* Section buffers are unbounded (`Nat → Int`); the engine's
  `DASM_M_GROW` reallocation never fails in the model, so the
  `DASM_S_NOMEM` path is not modelled.
* The `DASM_CHECKS` build switch is a `Bool` parameter `checks`: the
  `CK`/`CKPL` macros expand to real tests when `checks = true` and to
  no-ops when `checks = false`, mirroring the two C preprocessor builds.
-/

namespace DynasmA64

/-- Two's-complement 64-bit image of an integer (the value of
`(unsigned long)n` in C). -/
def tc64 (n : Int) : Nat := (n % (2 ^ 64 : Int)).toNat

/-- Low 32 bits of an integer (the value of `(unsigned int)n` in C). -/
def toU32 (n : Int) : Nat := (n % (2 ^ 32 : Int)).toNat

/-- C bitwise AND of a (possibly negative) integer with a non-negative
mask below `2^64`: `n & m` on two's-complement representations. -/
def landI (n : Int) (m : Nat) : Nat := tc64 n &&& m

/-- C arithmetic right shift of a signed integer (`n >> k`), which on the
compilers targeted by DynASM is floor division by `2^k`. -/
def sar (n : Int) (k : Nat) : Int := Int.fdiv n (2 ^ k)

/-- Truncation of a C `long` to a C `int` (`n = (int)l` in `dasm_put`). -/
def int32 (l : Int) : Int := (l + 2 ^ 31) % (2 ^ 32 : Int) - 2 ^ 31

/-! ### Action definitions (the `enum` at the top of the engine) -/

def DASM_STOP : Nat := 0
def DASM_SECTION : Nat := 1
def DASM_ESC : Nat := 2
def DASM_REL_EXT : Nat := 3
def DASM_ALIGN : Nat := 4
def DASM_REL_LG : Nat := 5
def DASM_LABEL_LG : Nat := 6
def DASM_REL_PC : Nat := 7
def DASM_LABEL_PC : Nat := 8
def DASM_IMM : Nat := 9
def DASM_IMMADDROFF : Nat := 10
def DASM_IMMNSR : Nat := 11
def DASM_IMMLSB : Nat := 12
def DASM_IMMWIDTH1 : Nat := 13
def DASM_IMMWIDTH2 : Nat := 14
def DASM_IMMSHIFT : Nat := 15
def DASM_IMMMOV : Nat := 16
def DASM_IMMTBN : Nat := 17
def DASM_IMMA2H : Nat := 18
def DASM_IMMA2H64 : Nat := 19
def DASM_IMMA2HFP : Nat := 20
def DASM_IMM8FP : Nat := 21
def DASM_IMMHLM : Nat := 22
def DASM_IMMQSS : Nat := 23
def DASM_IMMHB : Nat := 24
def DASM_IMMSCALE : Nat := 25
def DASM__MAX : Nat := 26

/-! ### Status codes -/

def DASM_S_OK : Nat := 0x00000000
def DASM_S_NOMEM : Nat := 0x01000000
def DASM_S_PHASE : Nat := 0x02000000
def DASM_S_MATCH_SEC : Nat := 0x03000000
def DASM_S_RANGE_I : Nat := 0x11000000
def DASM_S_RANGE_SEC : Nat := 0x12000000
def DASM_S_RANGE_LG : Nat := 0x13000000
def DASM_S_RANGE_PC : Nat := 0x14000000
def DASM_S_RANGE_REL : Nat := 0x15000000
def DASM_S_UNDEF_LG : Nat := 0x21000000
def DASM_S_UNDEF_PC : Nat := 0x22000000

/-! ### Position macros -/

def DASM_POS2IDX (pos : Nat) : Nat := pos &&& 0xffffff
def DASM_POS2SEC (pos : Nat) : Nat := pos >>> 24
def DASM_SEC2POS (sec : Nat) : Nat := sec <<< 24

/-! ### IMMNSR: logical bitmask immediates (`generatensrmap`, `getnsrencode`)

`generatensrmap` materializes, for every element size `esize ∈
{2,4,8,16,32,64}`, every run length `s ∈ [1, esize-1]` and every rotation
`r ∈ [0, esize-1]`, the value obtained by rotating the all-ones run right
by `r` inside the element and replicating the element across the operand
width, keyed to its `(N, imms, immr)` encoding. -/

/-- `ROR` of `t` by `r` within an `esize`-bit element, exactly as computed
in `generatensrmap`: `(t>>r) | ((t & ((1<<r)-1)) << (esize-r))` for
`r ≠ 0`. -/
def rorE (t r esize : Nat) : Nat :=
  if r = 0 then t else (t >>> r) ||| ((t &&& ((1 <<< r) - 1)) <<< (esize - r))

/-- Replication of an `esize`-bit element across `width` bits, as done by
the `while (es < width) { u |= (t1 << es); es += esize; }` loops. -/
def repl (t1 esize width : Nat) : Nat :=
  (List.range (width / esize)).foldl (fun a k => a ||| (t1 <<< (k * esize))) 0

/-- The `imms` high-bit pattern for a given `len` (element size `2^len`):
`(~((1<<(len+1))-1)) & 0x3f`. -/
def immsTop (len : Nat) : Nat := landI (-1 - ((2 ^ (len + 1) : Int) - 1)) 0x3f

/-- One `(imm32, imm64, encode)` generation step of `generatensrmap` for
element size `2^len` (`len ∈ [1,5]`), run length `s`, rotation `r`. -/
def nsrEntry (len s r : Nat) : Nat × Nat × Nat :=
  let esize := 1 <<< len
  let t := (1 <<< s) - 1
  let t1 := rorE t r esize
  (repl t1 esize 32, repl t1 esize 64,
   ((immsTop len ||| (s - 1)) <<< 10) ||| (r <<< 16))

/-- The 32-bit table `nsrmap32` (1302 entries), in generation order.
`bsearch` over the `qsort`ed C array is modelled as `List.find?`; sorting
changes neither membership nor the set of `(imm, encode)` pairs. -/
def nsrmap32 : List (Nat × Nat) :=
  (List.range' 1 5).flatMap fun len =>
    (List.range' 1 ((1 <<< len) - 1)).flatMap fun s =>
      (List.range (1 <<< len)).map fun r =>
        let e := nsrEntry len s r
        (e.1, e.2.2)

/-- The 64-bit table `nsrmap64` (5334 entries): the replicated small
elements plus the `esize = 64` block with the `N` bit (`0x400000`) set. -/
def nsrmap64 : List (Nat × Nat) :=
  ((List.range' 1 5).flatMap fun len =>
    (List.range' 1 ((1 <<< len) - 1)).flatMap fun s =>
      (List.range (1 <<< len)).map fun r =>
        let e := nsrEntry len s r
        (e.2.1, e.2.2)) ++
  ((List.range' 1 63).flatMap fun s =>
    (List.range 64).map fun r =>
      let t := (1 <<< s) - 1
      (rorE t r 64, 0x400000 ||| ((s - 1) <<< 10) ||| (r <<< 16)))

/-- `getnsrencode`: look the materialized immediate up in the table for
the requested operand width; `none` models the `bsearch` miss (return 0).
-/
def getnsrencode (imm : Nat) (bit64 : Bool) : Option Nat :=
  ((if bit64 then nsrmap64 else nsrmap32).find? fun pr => pr.1 == imm).map
    fun pr => pr.2

/-- Decoding of an `(N, imms, immr)` logical-immediate encoding back to
the materialized value, following the decode table and the
`Duplicate(ROR(Zeros(esize-S-1):Ones(S+1), R), width)` reference
semantics given in the engine's own comment block.  Returns `none` for
field patterns outside the table. -/
def nsrDecode (width e : Nat) : Option Nat :=
  let immr := (e >>> 16) &&& 0x3f
  let imms := (e >>> 10) &&& 0x3f
  let n := (e >>> 22) &&& 1
  let es : Option (Nat × Nat) :=
    if n = 1 then
      if width = 64 then some (64, imms + 1) else none
    else if imms < 0x20 then some (32, (imms &&& 0x1f) + 1)
    else if imms < 0x30 then some (16, (imms &&& 0xf) + 1)
    else if imms < 0x38 then some (8, (imms &&& 0x7) + 1)
    else if imms < 0x3c then some (4, (imms &&& 0x3) + 1)
    else if imms < 0x3e then some (2, (imms &&& 0x1) + 1)
    else none
  match es with
  | some (esize, s) =>
      if immr < esize ∧ 1 ≤ s ∧ s ≤ esize - 1 ∧ esize ≤ width then
        some (repl (rorE ((1 <<< s) - 1) immr esize) esize width)
      else none
  | none => none

/-! ### Wide-move immediates (`wide_imm`) and 8-bit-per-byte masks
(`a2h64_imm`) -/

/-- The lane-scanning loop of `wide_imm`: try lanes `i, i+1, ...` while
fuel remains (fuel = number of lanes left, `n - i`). -/
def wideLane (l : Nat) : Nat → Nat → Option Nat
  | _, 0 => none
  | i, k + 1 =>
      let m := (0xffff : Nat) <<< (16 * i)
      if l &&& m ≠ 0 ∧ l &&& ((2 ^ 64 - 1) ^^^ m) = 0 then
        some (((l >>> (i * 16)) <<< 5) ||| (i <<< 21))
      else wideLane l (i + 1) k

/-- `wide_imm`: accept `0` outright, else accept a value whose non-zero
bits are confined to a single aligned 16-bit lane (lane index below 4 for
64-bit operands, below 2 for 32-bit operands). -/
def wide_imm (l : Nat) (bit64 : Bool) : Option Nat :=
  if l = 0 then some 0
  else wideLane l 0 (if bit64 then 4 else 2)

/-- The byte-scanning loop of `a2h64_imm` (`i` counts up to 8, `e`
accumulates the byte mask). -/
def a2h64Loop (l : Nat) : Nat → Nat → Nat → Option Nat
  | e, _, 0 => some e
  | e, i, k + 1 =>
      let b := (l >>> (i * 8)) &&& 0xff
      if b = 0xff then a2h64Loop l (e ||| (1 <<< i)) (i + 1) k
      else if b ≠ 0 then none
      else a2h64Loop l e (i + 1) k

/-- `a2h64_imm`: accept a 64-bit value each of whose bytes is `0x00` or
`0xff`, encoded as the 8-bit byte mask split into the `abc`/`defgh`
fields. -/
def a2h64_imm (l : Nat) : Option Nat :=
  (a2h64Loop l 0 0 8).map fun e => ((e >>> 5) <<< 16) ||| ((e &&& 0x1f) <<< 5)

/-- The decision chain of the `DASM_IMMMOV` action: a move-wide encoding
(`MOVZ`-class, `|0x52800000`), an inverted move-wide (`MOVN`-class,
`|0x12800000`, excluded for the two 32-bit special values), or the
logical form (`|0x32000000`); `none` is the `CK(0, RANGE_I)` rejection.
-/
def immmovResult (l : Int) (bit64 : Bool) : Option Nat :=
  match wide_imm (tc64 l) bit64 with
  | some e => some (e ||| 0x52800000)
  | none =>
    let nsrFall : Option Nat :=
      (getnsrencode (tc64 l) bit64).map fun e => e ||| 0x32000000
    match wide_imm (tc64 (-1 - l)) bit64 with
    | some e =>
        if ¬(bit64 = false ∧ (l = 0xffff0000 ∨ l = 0x0000ffff)) then
          some (e ||| 0x12800000)
        else nsrFall
    | none => nsrFall

/-! ### The encoder state (`dasm_State` / `dasm_Section`)

The `rbuf`/`buf` pointer pair of the C code is modelled by addressing
every buffer cell through its biased position: `bufRead`/`bufWrite`
resolve a biased position to the section `pos >>> 24` and the true index
`pos &&& 0xffffff`, exactly as `DASM_POS2PTR` does. -/

structure dasm_Section where
  /-- Buffer contents by true (unbiased) index; unwritten cells read 0. -/
  buf : Nat → Int
  /-- Biased buffer position (true index plus `secnum <<< 24`). -/
  pos : Nat
  /-- Byte offset into the section (Pass-1 estimate). -/
  ofs : Int

structure dasm_State where
  actionlist : List Nat
  lglabels : List Int
  pclabels : List Int
  sections : List dasm_Section
  /-- Index of the active section (`D->section`). -/
  sectionIdx : Nat
  codesize : Int
  status : Nat

/-- Fresh section `i` as initialized by `dasm_init`/`dasm_setup`. -/
def emptySection (i : Nat) : dasm_Section :=
  { buf := fun _ => 0, pos := DASM_SEC2POS i, ofs := 0 }

/-- State after `dasm_init`, `dasm_setupglobal` and `dasm_growpc`
followed by `dasm_setup`. -/
def dasm_setup (maxsection : Nat) (al : List Nat) (maxgl maxpc : Nat) :
    dasm_State :=
  { actionlist := al
    lglabels := List.replicate (10 + maxgl) 0
    pclabels := List.replicate maxpc 0
    sections := (List.range maxsection).map emptySection
    sectionIdx := 0
    codesize := 0
    status := DASM_S_OK }

def listModify (l : List dasm_Section) (i : Nat)
    (f : dasm_Section → dasm_Section) : List dasm_Section :=
  match l[i]? with
  | some x => l.set i (f x)
  | none => l

/-- `*DASM_POS2PTR(D, pos)` (read). -/
def bufRead (D : dasm_State) (pos : Nat) : Int :=
  match D.sections[DASM_POS2SEC pos]? with
  | some s => s.buf (DASM_POS2IDX pos)
  | none => 0

/-- `*DASM_POS2PTR(D, pos) = v` (write). -/
def bufWrite (D : dasm_State) (pos : Nat) (v : Int) : dasm_State :=
  { D with
    sections := listModify D.sections (DASM_POS2SEC pos) fun s =>
      { s with buf := fun j => if j = DASM_POS2IDX pos then v else s.buf j } }

/-- Label-slot read: `isPC` selects `D->pclabels`, else `D->lglabels`. -/
def slotGet (D : dasm_State) (isPC : Bool) (i : Nat) : Int :=
  if isPC then D.pclabels.getD i 0 else D.lglabels.getD i 0

def slotSet (D : dasm_State) (isPC : Bool) (i : Nat) (v : Int) : dasm_State :=
  if isPC then { D with pclabels := D.pclabels.set i v }
  else { D with lglabels := D.lglabels.set i v }

/-- Collapse a relocation chain anchored at biased position `n`, storing
`w` into every chain cell (`while (n > 0) { pb = POS2PTR(n); n = *pb;
*pb = w; }`).  The fuel bounds the chain length; for the strictly
decreasing chains the engine builds, `n.toNat` suffices. -/
def collapse (w : Int) : Nat → dasm_State → Int → dasm_State
  | 0, D, _ => D
  | fuel + 1, D, n =>
      if n > 0 then
        let nxt := bufRead D n.toNat
        collapse w fuel (bufWrite D n.toNat w) nxt
      else D

/-! ### Pass 1: `dasm_put` -/

/-- Result of the Pass-1 action walk: either the terminal buffer
position and offset to be committed to the entry section, or a failure
status from a `CK`/`CKPL` check (which leaves `sec->pos`/`sec->ofs`
uncommitted). -/
inductive PutRes where
  | ok (D : dasm_State) (pos : Nat) (ofs : Int)
  | fail (D : dasm_State) (st : Nat)

/-- The `putrel` tail of `DASM_REL_LG`/`DASM_REL_PC` (the buffer cursor
advances by one in every branch, made explicit at the call sites): a
defined label (`*pl < 0`) stores its position, otherwise the reference
is linked into the chain anchored at the label slot. -/
def putrel (D : dasm_State) (isPC : Bool) (idx : Nat) (pos : Nat) :
    dasm_State :=
  if slotGet D isPC idx < 0 then bufWrite D pos (-(slotGet D isPC idx))
  else slotSet (bufWrite D pos (slotGet D isPC idx)) isPC idx (pos : Int)

/-- The `linkrel` tail: store the old chain head and make this reference
the new head. -/
def linkrel (D : dasm_State) (isPC : Bool) (idx : Nat) (v : Int)
    (pos : Nat) : dasm_State :=
  slotSet (bufWrite D pos v) isPC idx (pos : Int)

/-- The `putlabel` tail of `DASM_LABEL_LG`/`DASM_LABEL_PC`: collapse the
pending chain to this position, mark the label defined (`*pl = -pos`)
and store the Pass-1 offset estimate. -/
def putlabel (D : dasm_State) (isPC : Bool) (idx : Nat) (pos : Nat)
    (ofs : Int) : dasm_State :=
  bufWrite
    (slotSet (collapse (pos : Int) (slotGet D isPC idx).toNat D
        (slotGet D isPC idx)) isPC idx (-(pos : Int)))
    pos ofs

/-- Result of processing a single Pass-1 action: continue the walk,
stop it (`DASM_STOP`/`DASM_SECTION`), or abort with a status. -/
inductive StepRes where
  | cont (D : dasm_State) (p : Nat) (args : List Int) (pos : Nat) (ofs : Int)
  | stop (D : dasm_State) (pos : Nat) (ofs : Int)
  | err (D : dasm_State) (st : Nat)

/-- Processing of one action of the Pass-1 walk (`dasm_put`'s
`while (1)` body), with the entry section's biased position `pos` and
offset estimate `ofs` held in locals as in the C code. -/
def putStep (checks : Bool) (al : List Nat) (D : dasm_State) (p : Nat)
    (args : List Int) (pos : Nat) (ofs : Int) : StepRes :=
    let ins := al.getD p 0
    let action := ins >>> 16
    if action ≥ DASM__MAX then .cont D (p + 1) args pos (ofs + 4)
    else
      let l : Int := if action ≥ DASM_REL_PC then args.headD 0 else 0
      let args' := if action ≥ DASM_REL_PC then args.tail else args
      let n : Int := int32 l
      match action with
      | 0 => .stop D pos ofs  -- DASM_STOP
      | 1 =>  -- DASM_SECTION
        let ns := ins &&& 255
        if checks ∧ ¬(ns < D.sections.length) then
          .err D (DASM_S_RANGE_SEC ||| p)
        else .stop { D with sectionIdx := ns } pos ofs
      | 2 => .cont D (p + 2) args' pos (ofs + 4)  -- DASM_ESC
      | 3 => .cont D (p + 1) args' pos ofs  -- DASM_REL_EXT
      | 4 =>  -- DASM_ALIGN
        let ofs1 := ofs + ((ins &&& 255 : Nat) : Int)
        .cont (bufWrite D pos ofs1) (p + 1) args' (pos + 1) ofs1
      | 5 =>  -- DASM_REL_LG
        let nI : Int := ((ins &&& 2047 : Nat) : Int) - 10
        if nI ≥ 0 then
          if checks ∧ ¬(nI ≥ 10 ∨ slotGet D false nI.toNat < 0) then
            .err D (DASM_S_RANGE_LG ||| p)
          else if checks ∧ ¬(nI.toNat < D.lglabels.length) then
            .err D (DASM_S_RANGE_LG ||| p)
          else
            .cont (putrel D false nI.toNat pos) (p + 1) args' (pos + 1) ofs
        else
          let idx := ins &&& 2047
          let v := slotGet D false idx
          let v1 := if v < 0 then 0 else v
          .cont (linkrel D false idx v1 pos) (p + 1) args' (pos + 1) ofs
      | 7 =>  -- DASM_REL_PC
        if checks ∧ ¬(0 ≤ n ∧ n.toNat < D.pclabels.length) then
          .err D (DASM_S_RANGE_PC ||| p)
        else
          .cont (putrel D true n.toNat pos) (p + 1) args' (pos + 1) ofs
      | 6 =>  -- DASM_LABEL_LG
        let nI : Int := ((ins &&& 2047 : Nat) : Int) - 10
        if checks ∧ ¬(0 ≤ nI ∧ nI.toNat < D.lglabels.length) then
          .err D (DASM_S_RANGE_LG ||| p)
        else
          .cont (putlabel D false nI.toNat pos ofs) (p + 1) args' (pos + 1) ofs
      | 8 =>  -- DASM_LABEL_PC
        if checks ∧ ¬(0 ≤ n ∧ n.toNat < D.pclabels.length) then
          .err D (DASM_S_RANGE_PC ||| p)
        else
          .cont (putlabel D true n.toNat pos ofs) (p + 1) args' (pos + 1) ofs
      | 9 =>  -- DASM_IMM
        let sh := (ins >>> 10) &&& 31
        let w := (ins >>> 5) &&& 31
        if checks ∧ ¬(landI n (2 ^ sh - 1) = 0) then
          .err D (DASM_S_RANGE_I ||| p)
        else if checks ∧ ins &&& 0x8000 ≠ 0 ∧ ¬(sar (n + 2 ^ (w - 1)) w = 0) then
          .err D (DASM_S_RANGE_I ||| p)
        else if checks ∧ ins &&& 0x8000 = 0 ∧ ¬(sar n w = 0) then
          .err D (DASM_S_RANGE_I ||| p)
        else
          let word : Int := ((landI (sar n sh) (2 ^ w - 1)) <<< (ins &&& 31) : Nat)
          .cont (bufWrite D pos word) (p + 1) args' (pos + 1) ofs
      | 10 =>  -- DASM_IMMADDROFF
        let sh := (ins >>> 10) &&& 31
        let word : Int :=
          if (n ≥ -256 ∧ n < 0) ∨ (n ≤ 255 ∧ landI n (2 ^ sh - 1) ≠ 0) then
            ((1 ||| ((landI n (2 ^ 9 - 1)) <<< 12) : Nat) : Int)
          else ((landI (sar n sh) (2 ^ 12 - 1)) <<< 10 : Nat)
        .cont (bufWrite D pos word) (p + 1) args' (pos + 1) ofs
      | 11 =>  -- DASM_IMMNSR
        if checks ∧ ¬(ins &&& 0xffff ≤ 1) then .err D (DASM_S_RANGE_I ||| p)
        else
          match getnsrencode (tc64 l) (ins &&& 1 = 1) with
          | some e =>
              .cont (bufWrite D pos (e : Int)) (p + 1) args'
                (pos + 1) ofs
          | none =>
              if checks then .err D (DASM_S_RANGE_I ||| p)
              else  -- unchecked build: stores an indeterminate word
                .cont (bufWrite D pos 0) (p + 1) args'
                  (pos + 1) ofs
      | 12 =>  -- DASM_IMMLSB
        let mx : Nat := if ins &&& 1 = 1 then 63 else 31
        if checks ∧ ¬(ins &&& 0xffff ≤ 1) then .err D (DASM_S_RANGE_I ||| p)
        else if checks ∧ ¬(0 ≤ n ∧ n ≤ (mx : Int)) then
          .err D (DASM_S_RANGE_I ||| p)
        else
          let word : Int := ((landI (-n) mx) <<< 16 : Nat)
          .cont (bufWrite D pos word) (p + 1) args' (pos + 1) ofs
      | 13 =>  -- DASM_IMMWIDTH1
        let mx : Nat := if ins &&& 1 = 1 then 63 else 31
        if checks ∧ ¬(ins &&& 0xffff ≤ 1) then .err D (DASM_S_RANGE_I ||| p)
        else if checks ∧ ¬(n - 1 ≥ 0 ∧ n - 1 < sar (bufRead D (pos - 1)) 16) then
          .err D (DASM_S_RANGE_I ||| p)
        else
          let word : Int := ((landI (n - 1) mx) <<< 10 : Nat)
          .cont (bufWrite D pos word) (p + 1) args' (pos + 1) ofs
      | 14 =>  -- DASM_IMMWIDTH2
        let mx : Nat := if ins &&& 1 = 1 then 63 else 31
        let immr := sar (bufRead D (pos - 1)) 16
        let imms := immr + n - 1
        if checks ∧ ¬(ins &&& 0xffff ≤ 1) then .err D (DASM_S_RANGE_I ||| p)
        else if checks ∧ ¬(imms ≥ immr ∧ imms ≤ (mx : Int)) then
          .err D (DASM_S_RANGE_I ||| p)
        else
          let word : Int := ((landI imms mx) <<< 10 : Nat)
          .cont (bufWrite D pos word) (p + 1) args' (pos + 1) ofs
      | 15 =>  -- DASM_IMMSHIFT
        let mx : Nat := if ins &&& 1 = 1 then 63 else 31
        if checks ∧ ¬(ins &&& 0xffff ≤ 1) then .err D (DASM_S_RANGE_I ||| p)
        else if checks ∧ ¬(0 ≤ n ∧ n ≤ (mx : Int)) then
          .err D (DASM_S_RANGE_I ||| p)
        else
          let word : Int :=
            (((landI (-n) mx) <<< 16) ||| ((landI ((mx : Int) - n) mx) <<< 10) : Nat)
          .cont (bufWrite D pos word) (p + 1) args' (pos + 1) ofs
      | 16 =>  -- DASM_IMMMOV
        if checks ∧ ¬(ins &&& 0xffff ≤ 1) then .err D (DASM_S_RANGE_I ||| p)
        else
          match immmovResult l (ins &&& 1 = 1) with
          | some w =>
              .cont (bufWrite D pos (w : Int)) (p + 1) args'
                (pos + 1) ofs
          | none =>
              if checks then .err D (DASM_S_RANGE_I ||| p)
              else  -- unchecked build: CK(0,..) is a no-op, nothing stored
                .cont D (p + 1) args' pos ofs
      | 17 =>  -- DASM_IMMTBN
        if checks ∧ ¬(ins &&& 0xffff ≤ 1) then .err D (DASM_S_RANGE_I ||| p)
        else if checks ∧ ¬((ins &&& 1 = 1 ∧ n ≥ 32 ∧ n ≤ 63) ∨
            (ins &&& 1 ≠ 1 ∧ n ≥ 0 ∧ n ≤ 31)) then
          .err D (DASM_S_RANGE_I ||| p)
        else
          let word : Int := ((landI n 0x1f) <<< 19 : Nat)
          .cont (bufWrite D pos word) (p + 1) args' (pos + 1) ofs
      | 18 =>  -- DASM_IMMA2H
        if checks ∧ ¬(0 ≤ n ∧ n ≤ 255) then .err D (DASM_S_RANGE_I ||| p)
        else
          let word : Int :=
            (((landI (sar n 5) 0xffff) <<< 16) ||| ((landI n 0x1f) <<< 5) : Nat)
          .cont (bufWrite D pos word) (p + 1) args' (pos + 1) ofs
      | 19 =>  -- DASM_IMMA2H64
        match a2h64_imm (tc64 l) with
        | some e =>
            .cont (bufWrite D pos (e : Int)) (p + 1) args'
              (pos + 1) ofs
        | none =>
            if checks then .err D (DASM_S_RANGE_I ||| p)
            else  -- unchecked build: stores an indeterminate word
              .cont (bufWrite D pos 0) (p + 1) args' (pos + 1) ofs
      | 20 =>  -- DASM_IMMA2HFP
        let s := toU32 (sar l 63)
        let e := landI (sar l 52) 0x7ff
        let sig := landI (sar l 48) 0xf
        if checks ∧ ¬((e &&& 0x400 ≠ 0 ∧ e &&& 0x3fc = 0) ∨
            (e &&& 0x400 = 0 ∧ e &&& 0x3fc = 0x3fc)) then
          .err D (DASM_S_RANGE_I ||| p)
        else
          let word : Int :=
            (((s <<< 18) ||| ((e >>> 10) <<< 17) ||| (((e >>> 1) &&& 1) <<< 16) |||
              ((e &&& 1) <<< 9) ||| (sig <<< 5)) &&& 0xffffffff : Nat)
          .cont (bufWrite D pos word) (p + 1) args' (pos + 1) ofs
      | 21 =>  -- DASM_IMM8FP
        let s := toU32 (sar l 63)
        let e := landI (sar l 52) 0x7ff
        let sig := landI (sar l 48) 0xf
        if checks ∧ ¬((e &&& 0x400 ≠ 0 ∧ e &&& 0x3fc = 0) ∨
            (e &&& 0x400 = 0 ∧ e &&& 0x3fc = 0x3fc)) then
          .err D (DASM_S_RANGE_I ||| p)
        else
          let word : Int :=
            (((s <<< 20) ||| ((e >>> 10) <<< 19) ||| ((e &&& 3) <<< 17) |||
              (sig <<< 13)) &&& 0xffffffff : Nat)
          .cont (bufWrite D pos word) (p + 1) args' (pos + 1) ofs
      | 22 =>  -- DASM_IMMHLM
        let bits := ins &&& 0xffff
        if checks ∧ ¬(bits ≥ 1 ∧ bits ≤ 3 ∧ 0 ≤ n ∧ n < (2 ^ bits : Nat)) then
          .err D (DASM_S_RANGE_I ||| p)
        else
          let word : Int :=
            if bits = 3 then
              (((landI (sar n 2) 1) <<< 11) ||| ((landI n 3) <<< 20) : Nat)
            else if bits = 2 then
              (((landI (sar n 1) 1) <<< 11) ||| ((landI n 1) <<< 21) : Nat)
            else if bits = 1 then ((landI n 1) <<< 11 : Nat)
            else 0
          .cont (bufWrite D pos word) (p + 1) args' (pos + 1) ofs
      | 23 =>  -- DASM_IMMQSS
        let bits := ins &&& 0xffff
        if checks ∧ ¬(bits ≥ 1 ∧ bits ≤ 4 ∧ 0 ≤ n ∧ n < (2 ^ bits : Nat)) then
          .err D (DASM_S_RANGE_I ||| p)
        else
          let word : Int :=
            if bits = 4 then
              (((landI (sar n 3) 1) <<< 30) ||| ((landI n 7) <<< 10) : Nat)
            else if bits = 3 then
              (((landI (sar n 2) 1) <<< 30) ||| ((landI n 3) <<< 11) : Nat)
            else if bits = 2 then
              (((landI (sar n 1) 1) <<< 30) ||| ((landI n 1) <<< 12) : Nat)
            else if bits = 1 then ((landI n 1) <<< 30 : Nat)
            else 0
          .cont (bufWrite D pos word) (p + 1) args' (pos + 1) ofs
      | 24 =>  -- DASM_IMMHB
        let bits := ins &&& 0xffff
        if checks ∧ ¬(bits ≥ 3 ∧ bits ≤ 6 ∧ n ≥ 1 ∧ n ≤ (2 ^ bits : Nat)) then
          .err D (DASM_S_RANGE_I ||| p)
        else
          let mx : Nat := 2 ^ bits
          let word : Int := ((landI ((mx : Int) - n) (mx - 1)) <<< 16 : Nat)
          .cont (bufWrite D pos word) (p + 1) args' (pos + 1) ofs
      | 25 =>  -- DASM_IMMSCALE
        let mx : Nat := if ins &&& 1 = 1 then 64 else 32
        if checks ∧ ¬(ins &&& 0xffff ≤ 1) then .err D (DASM_S_RANGE_I ||| p)
        else if checks ∧ ¬(1 ≤ n ∧ n ≤ (mx : Int)) then
          .err D (DASM_S_RANGE_I ||| p)
        else
          let word : Int := ((landI ((mx : Int) - n) (mx - 1)) <<< 10 : Nat)
          .cont (bufWrite D pos word) (p + 1) args' (pos + 1) ofs
      | _ => .stop D pos ofs  -- unreachable: actions < DASM__MAX are all listed

/-- The state carried by a Pass-1 walk result. -/
def PutRes.st : PutRes → dasm_State
  | .ok D _ _ => D
  | .fail D _ => D

/-- The final offset of a Pass-1 walk result (`dflt` when a check
failed). -/
def PutRes.ofsE : PutRes → Int → Int
  | .ok _ _ o, _ => o
  | .fail _ _, dflt => dflt

/-- The state carried by a Pass-1 step result. -/
def StepRes.st : StepRes → dasm_State
  | .cont D _ _ _ _ => D
  | .stop D _ _ => D
  | .err D _ => D

/-- The running offset of a Pass-1 step result (`dflt` for a failed
check, which discards the locals). -/
def StepRes.ofsE : StepRes → Int → Int
  | .cont _ _ _ _ o, _ => o
  | .stop _ _ o, _ => o
  | .err _ _, dflt => dflt

/-- The Pass-1 walk: iterate `putStep`.  `fuel ≥ al.length + 1 - p`
always suffices because `p` strictly increases and any index beyond the
list reads the word `0`, i.e. `DASM_STOP`. -/
def putWalk (checks : Bool) (al : List Nat) :
    Nat → dasm_State → Nat → List Int → Nat → Int → PutRes
  | 0, D, _, _, pos, ofs => .ok D pos ofs
  | fuel + 1, D, p, args, pos, ofs =>
    match putStep checks al D p args pos ofs with
    | .cont D1 p1 args1 pos1 ofs1 => putWalk checks al fuel D1 p1 args1 pos1 ofs1
    | .stop D1 pos1 ofs1 => .ok D1 pos1 ofs1
    | .err D1 st => .fail D1 st

/-- The `stop:` epilogue of `dasm_put`: commit position and offset to
the entry section `e` on success; a failed check records the status and
commits nothing. -/
def putCommit (e : Nat) : PutRes → dasm_State
  | .ok D2 pos1 ofs1 =>
      { D2 with
        sections := listModify D2.sections e fun s =>
          { s with pos := pos1, ofs := ofs1 } }
  | .fail D2 st => { D2 with status := st }

/-- Pass 1 entry point `dasm_put(Dst, start, ...)`: store `start` at the
current position, walk the actions, and commit. -/
def dasm_put (checks : Bool) (D : dasm_State) (start : Nat)
    (args : List Int) : dasm_State :=
  let e := D.sectionIdx
  let sec := D.sections.getD e (emptySection e)
  let D1 := bufWrite D sec.pos (start : Int)
  putCommit e (putWalk checks D.actionlist (D.actionlist.length + 1) D1 start
    args (sec.pos + 1) sec.ofs)

/-- A sequence of Pass-1 calls. -/
def applyPuts (checks : Bool) (D : dasm_State)
    (ps : List (Nat × List Int)) : dasm_State :=
  ps.foldl (fun d pr => dasm_put checks d pr.1 pr.2) D

/-! ### Pass 2: `dasm_link` -/

/-- Result of processing a single Pass-2 action. -/
inductive LinkStepRes where
  | cont (D : dasm_State) (p pos : Nat) (ofs : Int)
  | stop (D : dasm_State) (pos : Nat) (ofs : Int)

/-- Processing of one action of a Pass-2 batch walk (the inner
`while (1)` of `dasm_link`): shrink alignment, add the running
adjustment to label cells, and skip over the other argument cells. -/
def linkStep (al : List Nat) (D : dasm_State) (p pos : Nat) (ofs : Int) :
    LinkStepRes :=
  let ins := al.getD p 0
  let action := ins >>> 16
  if action ≥ DASM__MAX then .cont D (p + 1) pos ofs
  else
    match action with
    | 0 => .stop D pos ofs  -- DASM_STOP
    | 1 => .stop D pos ofs  -- DASM_SECTION
    | 2 => .cont D (p + 2) pos ofs  -- DASM_ESC
    | 3 => .cont D (p + 1) pos ofs  -- DASM_REL_EXT
    | 4 =>  -- DASM_ALIGN: ofs -= (b[pos++] + ofs) & (ins & 255)
      let v := bufRead D pos
      .cont D (p + 1) (pos + 1)
        (ofs - ((landI (v + ofs) (ins &&& 255) : Nat) : Int))
    | 5 => .cont D (p + 1) (pos + 1) ofs  -- DASM_REL_LG
    | 7 => .cont D (p + 1) (pos + 1) ofs  -- DASM_REL_PC
    | 6 =>  -- DASM_LABEL_LG: b[pos++] += ofs
      .cont (bufWrite D pos (bufRead D pos + ofs)) (p + 1) (pos + 1) ofs
    | 8 =>  -- DASM_LABEL_PC: b[pos++] += ofs
      .cont (bufWrite D pos (bufRead D pos + ofs)) (p + 1) (pos + 1) ofs
    | _ =>  -- the DASM_IMM* actions: skip one argument cell
      .cont D (p + 1) (pos + 1) ofs

/-- The Pass-2 batch walk: iterate `linkStep`. -/
def linkWalk (al : List Nat) :
    Nat → dasm_State → Nat → Nat → Int → dasm_State × Nat × Int
  | 0, D, _, pos, ofs => (D, pos, ofs)
  | fuel + 1, D, p, pos, ofs =>
    match linkStep al D p pos ofs with
    | .cont D1 p1 pos1 ofs1 => linkWalk al fuel D1 p1 pos1 ofs1
    | .stop D1 pos1 ofs1 => (D1, pos1, ofs1)

/-- The per-section batch loop of Pass 2 (`while (pos != lastpos)`). -/
def linkSec (al : List Nat) :
    Nat → dasm_State → Nat → Nat → Int → dasm_State × Int
  | 0, D, _, _, ofs => (D, ofs)
  | fuel + 1, D, pos, lastpos, ofs =>
    if pos = lastpos then (D, ofs)
    else
      let start := (bufRead D pos).toNat
      match linkWalk al (al.length + 1) D start (pos + 1) ofs with
      | (D1, pos1, ofs1) => linkSec al fuel D1 pos1 lastpos ofs1

/-- The global-label loop of `dasm_link`: for every global slot
(`idx ≥ 20`), collapse a pending (undefined) chain into the marker
`-idx`. -/
def linkGlobals (D : dasm_State) : dasm_State :=
  (List.range' 20 (D.lglabels.length - 20)).foldl
    (fun d idx =>
      let v := d.lglabels.getD idx 0
      collapse (-(idx : Int)) v.toNat d v) D

/-- Pass 2 `dasm_link`: returns `(status, state, *szp)`.  The
`DASM_CHECKS`-only parts are the early return on a sticky error status
and the scan for referenced-but-undefined PC labels. -/
def dasm_link (checks : Bool) (D : dasm_State) : Nat × dasm_State × Int :=
  if checks ∧ D.status ≠ DASM_S_OK then (D.status, D, 0)
  else
    match (if checks then D.pclabels.findIdx? (fun v => v > 0) else none) with
    | some pc => (DASM_S_UNDEF_PC ||| pc, D, 0)
    | none =>
      let D1 := linkGlobals D
      let r :=
        (List.range D1.sections.length).foldl
          (fun (acc : dasm_State × Int) sn =>
            let sec := acc.1.sections.getD sn (emptySection sn)
            let (d, o) := linkSec acc.1.actionlist (DASM_POS2IDX sec.pos + 1)
              acc.1 (DASM_SEC2POS sn) sec.pos acc.2
            (d, o + sec.ofs))
          (D1, 0)
      (DASM_S_OK, { r.1 with codesize := r.2 }, r.2)

/-! ### Pass 3: `dasm_encode`

The output is accumulated in reverse (`out.head` is `cp[-1]`); the
write cursor `cp - base` is `4 * out.length`.  Stores into the caller's
`D->globals` array are collected in `gout` instead of mutating state
(the C code writes through a user-supplied pointer). -/

/-- The `DASM_ALIGN` padding loop of Pass 3
(`while (((char*)cp - base) & ins) *cp++ = 0xe1a00000`). -/
def padAlign (insm : Nat) : Nat → List Nat → List Nat
  | 0, out => out
  | fuel + 1, out =>
      if (4 * out.length) &&& insm ≠ 0 then padAlign insm fuel (0xe1a00000 :: out)
      else out

/-- The `patchrel` tail of Pass 3: validate the displacement `n` against
the addressing mode selected by `ins & 0xf000` and OR its shifted bits
into the word before the cursor.  `p` is the action-list offset carried
by a range-error status. -/
def patchrel (checks : Bool) (ins : Nat) (n : Int) (p : Nat)
    (out : List Nat) : Except Nat (List Nat) :=
  let patch : Nat → List Nat := fun v =>
    match out with
    | h :: t => (h ||| v) :: t
    | [] => []
  let mode := ins &&& 0xf000
  if mode = 0 then  -- page label21: low 12 bits clear, pages in (-1M, 1M)
    let n1 := sar n 12
    if checks ∧ ¬(landI n 0xfff = 0 ∧ -0x100000 < n1 ∧ n1 < 0x100000) then
      .error (DASM_S_RANGE_REL ||| p)
    else .ok (patch (((landI n1 3) <<< 29) ||| ((landI (sar n1 2) 0x7ffff) <<< 5)))
  else if mode = 0x1000 then  -- byte label21: -1M < n < 1M
    if checks ∧ ¬(-0x100000 < n ∧ n < 0x100000) then
      .error (DASM_S_RANGE_REL ||| p)
    else .ok (patch (((landI n 3) <<< 29) ||| ((landI (sar n 2) 0x7ffff) <<< 5)))
  else if mode = 0x2000 then  -- word label14: n ≡ 0 (mod 4), -32K < n < 32K
    if checks ∧ ¬(landI n 3 = 0 ∧ -0x8000 < n ∧ n < 0x8000) then
      .error (DASM_S_RANGE_REL ||| p)
    else .ok (patch ((landI (sar n 2) 0x7fff) <<< 5))
  else if mode = 0x3000 then  -- word label19: n ≡ 0 (mod 4), -1M < n < 1M
    if checks ∧ ¬(landI n 3 = 0 ∧ n > -0x100000 ∧ n < 0x100000) then
      .error (DASM_S_RANGE_REL ||| p)
    else .ok (patch ((landI (sar n 2) 0x7ffff) <<< 5))
  else  -- word label26: n ≡ 0 (mod 4), -128M < n < 128M
    if checks ∧ ¬(landI n 3 = 0 ∧ n > -0x8000000 ∧ n < 0x8000000) then
      .error (DASM_S_RANGE_REL ||| p)
    else .ok (patch (landI (sar n 2) 0x3ffffff))

/-- Result of processing a single Pass-3 action. -/
inductive EncStepRes where
  | cont (p bi : Nat) (out : List Nat) (gout : List (Nat × Int))
  | stop (bi : Nat) (out : List Nat) (gout : List (Nat × Int))
  | err (st : Nat)

/-- Processing of one action of a Pass-3 batch walk.  `secn`/`bi`
address the current section's buffer cells (true indices); `out` is the
reversed global output. -/
def encStep (checks : Bool) (D : dasm_State) (secn : Nat) (p bi : Nat)
    (out : List Nat) (gout : List (Nat × Int)) : EncStepRes :=
    let ins := D.actionlist.getD p 0
    let action := ins >>> 16
    if action ≥ DASM__MAX then
      .cont (p + 1) bi (ins :: out) gout
    else
      let secbuf := (D.sections.getD secn (emptySection secn)).buf
      let consume := decide (DASM_ALIGN ≤ action)
      let n : Int := if consume then secbuf bi else 0
      let bi1 := if consume then bi + 1 else bi
      match action with
      | 0 => .stop bi out gout  -- DASM_STOP
      | 1 => .stop bi out gout  -- DASM_SECTION
      | 2 =>  -- DASM_ESC: *cp++ = *p++
        .cont (p + 2) bi ((D.actionlist.getD (p + 1) 0) :: out)
          gout
      | 3 =>  -- DASM_REL_EXT: DASM_EXTERN defaults to 0, then patchrel
        match patchrel checks ins 0 p out with
        | .ok out1 => .cont (p + 1) bi out1 gout
        | .error st => .err st
      | 4 =>  -- DASM_ALIGN: pad with no-op words up to the boundary
        .cont (p + 1) bi1 (padAlign (ins &&& 255) 64 out) gout
      | 5 =>  -- DASM_REL_LG
        if checks ∧ n < 0 then .err (DASM_S_UNDEF_LG ||| p)
        else
          let disp := bufRead D n.toNat - (4 * out.length : Int) + 4
          match patchrel checks ins disp p out with
          | .ok out1 => .cont (p + 1) bi1 out1 gout
          | .error st => .err st
      | 7 =>  -- DASM_REL_PC
        if checks ∧ n < 0 then .err (DASM_S_UNDEF_PC ||| p)
        else
          let disp := bufRead D n.toNat - (4 * out.length : Int) + 4
          match patchrel checks ins disp p out with
          | .ok out1 => .cont (p + 1) bi1 out1 gout
          | .error st => .err st
      | 6 =>  -- DASM_LABEL_LG: record a global's final address
        let ig := ins &&& 2047
        let gout1 := if ig ≥ 20 then (ig - 10, n) :: gout else gout
        .cont (p + 1) bi1 out gout1
      | 8 => .cont (p + 1) bi1 out gout  -- DASM_LABEL_PC
      | 10 =>  -- DASM_IMMADDROFF
        let out1 :=
          match out with
          | h :: t =>
              ((if landI n 1 = 1 then h &&& 0xfeffffff else h) |||
                (tc64 n &&& 0xfffffffe)) :: t
          | [] => []
        .cont (p + 1) bi1 out1 gout
      | _ =>  -- DASM_IMM and the remaining immediate actions: cp[-1] |= n
        let out1 :=
          match out with
          | h :: t => (h ||| (tc64 n &&& 0xffffffff)) :: t
          | [] => []
        .cont (p + 1) bi1 out1 gout


/-- The Pass-3 batch walk: iterate `encStep`. -/
def encWalk (checks : Bool) (D : dasm_State) (secn : Nat) :
    Nat → Nat → Nat → List Nat → List (Nat × Int) →
    Except Nat (Nat × List Nat × List (Nat × Int))
  | 0, _, bi, out, gout => .ok (bi, out, gout)
  | fuel + 1, p, bi, out, gout =>
    match encStep checks D secn p bi out gout with
    | .cont p1 bi1 out1 gout1 => encWalk checks D secn fuel p1 bi1 out1 gout1
    | .stop bi1 out1 gout1 => .ok (bi1, out1, gout1)
    | .err st => .error st

/-- The per-section batch loop of Pass 3 (`while (b != endb)`). -/
def encSec (checks : Bool) (D : dasm_State) (secn : Nat) :
    Nat → Nat → List Nat → List (Nat × Int) →
    Except Nat (List Nat × List (Nat × Int))
  | 0, _, out, gout => .ok (out, gout)
  | fuel + 1, bi, out, gout =>
    if bi = DASM_POS2IDX ((D.sections.getD secn (emptySection secn)).pos) then
      .ok (out, gout)
    else
      let start := ((D.sections.getD secn (emptySection secn)).buf bi).toNat
      match encWalk checks D secn (D.actionlist.length + 1) start (bi + 1) out
          gout with
      | .ok (bi1, out1, gout1) => encSec checks D secn fuel bi1 out1 gout1
      | .error st => .error st

/-- All sections of Pass 3 in order. -/
def encodeAll (checks : Bool) (D : dasm_State) :
    Except Nat (List Nat × List (Nat × Int)) :=
  (List.range D.sections.length).foldl
    (fun acc secn =>
      match acc with
      | .error st => .error st
      | .ok (out, gout) =>
          encSec checks D secn
            (DASM_POS2IDX ((D.sections.getD secn (emptySection secn)).pos) + 1)
            0 out gout)
    (.ok ([], []))

/-- Pass 3 `dasm_encode`: returns `(status, emitted words, global
stores)`.  The final phase check compares the write cursor with
`base + D->codesize`. -/
def dasm_encode (checks : Bool) (D : dasm_State) :
    Nat × List Nat × List (Nat × Int) :=
  match encodeAll checks D with
  | .error st => (st, [], [])
  | .ok (out, gout) =>
      (if D.codesize ≠ (4 * out.length : Int) then DASM_S_PHASE else DASM_S_OK,
       out.reverse, gout.reverse)

/-! ### `dasm_getpclabel` and `dasm_checkstep` -/

/-- `dasm_getpclabel`: resolved position for a defined label (negative
slot), `-1` for a referenced-but-undefined label (positive slot), `-2`
for an unused slot or an out-of-range index. -/
def dasm_getpclabel (D : dasm_State) (pc : Nat) : Int :=
  if pc < D.pclabels.length then
    let pos := D.pclabels.getD pc 0
    if pos < 0 then bufRead D (-pos).toNat
    else if pos > 0 then -1
    else -2
  else -2

/-- The local-label scan of `dasm_checkstep` (labels 1..9): first
pending chain wins, defined slots are reset to 0. -/
def checkstepLocals : List Nat → dasm_State → dasm_State
  | [], D => D
  | i :: rest, D =>
      if D.lglabels.getD i 0 > 0 then { D with status := DASM_S_UNDEF_LG ||| i }
      else checkstepLocals rest { D with lglabels := D.lglabels.set i 0 }

/-- `dasm_checkstep` (a `DASM_CHECKS`-only entry point): flag dangling
local labels and a mismatched active section. -/
def dasm_checkstep (D : dasm_State) (secmatch : Int) : dasm_State :=
  let D1 := if D.status = DASM_S_OK then
      checkstepLocals [1, 2, 3, 4, 5, 6, 7, 8, 9] D
    else D
  if D1.status = DASM_S_OK ∧ 0 ≤ secmatch ∧
      D1.sectionIdx ≠ secmatch.toNat then
    { D1 with status := DASM_S_MATCH_SEC ||| D1.sectionIdx }
  else D1

/-! ### Derived accessors -/

/-- Byte-offset estimate of section `i`. -/
def secOfs (D : dasm_State) (i : Nat) : Int :=
  (D.sections.getD i (emptySection i)).ofs

/-- Biased buffer position of section `i`. -/
def secPos (D : dasm_State) (i : Nat) : Nat :=
  (D.sections.getD i (emptySection i)).pos

/-! ### A concrete assembly scenario

A one-section program over a three-template action list:

* offsets 0..2: an AArch64 `B` instruction word (`0x14000000`) followed
  by a word-label26 PC relocation and a stop;
* offsets 3..4: a `NOP` literal (`0xd503201f`) and a stop;
* offsets 5..6: a PC-label definition and a stop.

`demoBoth` emits a forward branch to PC label 0, three `NOP`s, the
definition of PC label 0, and a backward branch to the same label. -/
def demoActions : List Nat :=
  [0x14000000, (7 <<< 16) ||| 0x5000, 0, 0xd503201f, 0, 8 <<< 16, 0]

def demoStart : dasm_State := dasm_setup 1 demoActions 0 1

def demoBoth : dasm_State :=
  applyPuts true demoStart [(0, [0]), (3, []), (3, []), (3, []), (5, [0]), (0, [0])]

def demoLinked : dasm_State := (dasm_link true demoBoth).2.1

/-- A state as it stands after Pass 1 and Pass 2 for a one-instruction
program `B <label>` (word-label14 relocation, mode `0x2000`) where PC
label 0 resolved to byte offset `labofs`: buffer cell 1 is the
relocation argument pointing at the label record in cell 3. -/
def relDemo (labofs : Int) : dasm_State :=
  { actionlist := [0x14000000, (7 <<< 16) ||| 0x2000, 0, 8 <<< 16, 0]
    lglabels := List.replicate 10 0
    pclabels := [-3]
    sections := [⟨fun i =>
      if i = 0 then 0 else if i = 1 then 3 else if i = 2 then 3 else
      if i = 3 then labofs else 0, 4, 4⟩]
    sectionIdx := 0
    codesize := 4
    status := DASM_S_OK }


/-! ### Generic lemmas about `listModify` -/

theorem listModify_length (l : List dasm_Section) (k : Nat)
    (f : dasm_Section → dasm_Section) :
    (listModify l k f).length = l.length := by
  unfold listModify
  cases h : l[k]? with
  | none => rfl
  | some s => exact List.length_set ..

theorem listModify_getD_ne (l : List dasm_Section) (k : Nat)
    (f : dasm_Section → dasm_Section) (i : Nat) (d : dasm_Section)
    (h : i ≠ k) : (listModify l k f).getD i d = l.getD i d := by
  unfold listModify
  cases hk : l[k]? with
  | none => rfl
  | some s =>
    rw [List.getD_eq_getElem?_getD, List.getD_eq_getElem?_getD,
      List.getElem?_set_ne (fun hh => h hh.symm)]

theorem listModify_getD_self (l : List dasm_Section) (k : Nat)
    (f : dasm_Section → dasm_Section) (d : dasm_Section)
    (h : k < l.length) :
    (listModify l k f).getD k d = f (l.getD k d) := by
  unfold listModify
  cases hk : l[k]? with
  | none =>
    rw [List.getElem?_eq_getElem h] at hk
    exact Option.noConfusion hk
  | some s =>
    rw [List.getD_eq_getElem?_getD, List.getD_eq_getElem?_getD,
      List.getElem?_set_self h, hk]
    rfl

theorem listModify_oob (l : List dasm_Section) (k : Nat)
    (f : dasm_Section → dasm_Section) (h : l.length ≤ k) :
    listModify l k f = l := by
  unfold listModify
  rw [List.getElem?_eq_none h]


theorem listModify_getD_proj {β : Type} (g : dasm_Section → β)
    (l : List dasm_Section) (k : Nat) (f : dasm_Section → dasm_Section)
    (hf : ∀ s, g (f s) = g s) (i : Nat) (d : dasm_Section) :
    g ((listModify l k f).getD i d) = g (l.getD i d) := by
  unfold listModify
  cases h : l[k]? with
  | none => rfl
  | some s =>
    rw [List.getD_eq_getElem?_getD, List.getD_eq_getElem?_getD,
      List.getElem?_set]
    by_cases hik : k = i
    · subst hik
      have hk : k < l.length := by
        by_contra hk
        rw [List.getElem?_eq_none (by omega)] at h
        exact Option.noConfusion h
      rw [if_pos rfl, if_pos hk, h]
      exact hf s
    · rw [if_neg hik]

@[simp] theorem secOfs_bufWrite (D : dasm_State) (q : Nat) (v : Int) (i : Nat) :
    secOfs (bufWrite D q v) i = secOfs D i := by
  unfold secOfs bufWrite
  dsimp only
  apply listModify_getD_proj
  intro s; rfl

@[simp] theorem secPos_bufWrite (D : dasm_State) (q : Nat) (v : Int) (i : Nat) :
    secPos (bufWrite D q v) i = secPos D i := by
  unfold secPos bufWrite
  dsimp only
  apply listModify_getD_proj
  intro s; rfl

@[simp] theorem status_bufWrite (D : dasm_State) (q : Nat) (v : Int) :
    (bufWrite D q v).status = D.status := rfl

@[simp] theorem secOfs_slotSet (D : dasm_State) (b : Bool) (k : Nat) (v : Int)
    (i : Nat) : secOfs (slotSet D b k v) i = secOfs D i := by
  cases b <;> rfl

@[simp] theorem secPos_slotSet (D : dasm_State) (b : Bool) (k : Nat) (v : Int)
    (i : Nat) : secPos (slotSet D b k v) i = secPos D i := by
  cases b <;> rfl

@[simp] theorem status_slotSet (D : dasm_State) (b : Bool) (k : Nat) (v : Int) :
    (slotSet D b k v).status = D.status := by
  cases b <;> rfl

@[simp] theorem secOfs_collapse (w : Int) (fuel : Nat) :
    ∀ (D : dasm_State) (n : Int) (i : Nat),
      secOfs (collapse w fuel D n) i = secOfs D i := by
  induction fuel with
  | zero => intro D n i; rfl
  | succ fuel ih =>
    intro D n i
    rw [collapse]
    split
    · rw [ih, secOfs_bufWrite]
    · rfl

@[simp] theorem secPos_collapse (w : Int) (fuel : Nat) :
    ∀ (D : dasm_State) (n : Int) (i : Nat),
      secPos (collapse w fuel D n) i = secPos D i := by
  induction fuel with
  | zero => intro D n i; rfl
  | succ fuel ih =>
    intro D n i
    rw [collapse]
    split
    · rw [ih, secPos_bufWrite]
    · rfl

@[simp] theorem status_collapse (w : Int) (fuel : Nat) :
    ∀ (D : dasm_State) (n : Int),
      (collapse w fuel D n).status = D.status := by
  induction fuel with
  | zero => intro D n; rfl
  | succ fuel ih =>
    intro D n
    rw [collapse]
    split
    · rw [ih, status_bufWrite]
    · rfl

@[simp] theorem secOfs_putrel (D : dasm_State) (b : Bool) (k q i : Nat) :
    secOfs (putrel D b k q) i = secOfs D i := by
  unfold putrel; split <;> simp

@[simp] theorem secPos_putrel (D : dasm_State) (b : Bool) (k q i : Nat) :
    secPos (putrel D b k q) i = secPos D i := by
  unfold putrel; split <;> simp

@[simp] theorem status_putrel (D : dasm_State) (b : Bool) (k q : Nat) :
    (putrel D b k q).status = D.status := by
  unfold putrel; split <;> simp

@[simp] theorem secOfs_linkrel (D : dasm_State) (b : Bool) (k : Nat) (v : Int)
    (q i : Nat) : secOfs (linkrel D b k v q) i = secOfs D i := by
  unfold linkrel; simp

@[simp] theorem secPos_linkrel (D : dasm_State) (b : Bool) (k : Nat) (v : Int)
    (q i : Nat) : secPos (linkrel D b k v q) i = secPos D i := by
  unfold linkrel; simp

@[simp] theorem status_linkrel (D : dasm_State) (b : Bool) (k : Nat) (v : Int)
    (q : Nat) : (linkrel D b k v q).status = D.status := by
  unfold linkrel; simp

@[simp] theorem secOfs_putlabel (D : dasm_State) (b : Bool) (k q : Nat)
    (o : Int) (i : Nat) : secOfs (putlabel D b k q o) i = secOfs D i := by
  unfold putlabel; simp

@[simp] theorem secPos_putlabel (D : dasm_State) (b : Bool) (k q : Nat)
    (o : Int) (i : Nat) : secPos (putlabel D b k q o) i = secPos D i := by
  unfold putlabel; simp

@[simp] theorem status_putlabel (D : dasm_State) (b : Bool) (k q : Nat)
    (o : Int) : (putlabel D b k q o).status = D.status := by
  unfold putlabel; simp

/-- The frame facts every Pass-1 step result satisfies. -/
def resFrame (D : dasm_State) (ofs : Int) : StepRes → Prop
  | .cont D1 _ _ _ ofs1 =>
      (∀ i, secOfs D1 i = secOfs D i) ∧ (∀ i, secPos D1 i = secPos D i) ∧
        D1.status = D.status ∧ ofs ≤ ofs1
  | .stop D1 _ ofs1 =>
      (∀ i, secOfs D1 i = secOfs D i) ∧ (∀ i, secPos D1 i = secPos D i) ∧
        D1.status = D.status ∧ ofs ≤ ofs1
  | .err D1 _ =>
      (∀ i, secOfs D1 i = secOfs D i) ∧ (∀ i, secPos D1 i = secPos D i) ∧
        D1.status = D.status

set_option maxHeartbeats 1000000 in
/-- Framing of one Pass-1 step: no action changes any section's
committed `ofs`/`pos` fields or the status (`dasm_put` commits them only
at the end), and the running offset estimate never decreases. -/
theorem putStep_frame (checks : Bool) (al : List Nat) (D : dasm_State)
    (p : Nat) (args : List Int) (pos : Nat) (ofs : Int) :
    resFrame D ofs (putStep checks al D p args pos ofs) := by
  unfold putStep
  dsimp only
  rcases Nat.lt_or_ge (al.getD p 0 >>> 16) DASM__MAX with hlt | hge
  · rw [if_neg (by omega)]
    set a := al.getD p 0 >>> 16 with ha
    clear_value a
    have h26 : a < 26 := hlt
    interval_cases a <;>
      · dsimp only [resFrame]
        repeat' split
        all_goals try exact ⟨fun i => by first | rfl | simp,
          fun i => by first | rfl | simp, by first | rfl | simp, by omega⟩
        all_goals try exact ⟨fun i => by first | rfl | simp,
          fun i => by first | rfl | simp, by first | rfl | simp⟩
        all_goals (rename_i heq; (repeat' split at heq) <;> (try cases heq))
        all_goals try dsimp only [resFrame]
        all_goals first
          | exact ⟨fun i => by first | rfl | simp,
              fun i => by first | rfl | simp, by first | rfl | simp, by omega⟩
          | exact ⟨fun i => by first | rfl | simp,
              fun i => by first | rfl | simp, by first | rfl | simp⟩
  · rw [if_pos hge]
    exact ⟨fun i => rfl, fun i => rfl, rfl, by omega⟩




theorem PutRes.ofsE_mono (r : PutRes) (a b : Int) (hab : a ≤ b)
    (h : b ≤ r.ofsE b) : a ≤ r.ofsE a := by
  cases r <;> dsimp [PutRes.ofsE] at * <;> omega

/-- Framing of the whole Pass-1 walk. -/
theorem putWalk_frame (checks : Bool) (al : List Nat) :
    ∀ (fuel : Nat) (D : dasm_State) (p : Nat) (args : List Int) (pos : Nat)
      (ofs : Int),
      (∀ i, secOfs (putWalk checks al fuel D p args pos ofs).st i = secOfs D i) ∧
      (∀ i, secPos (putWalk checks al fuel D p args pos ofs).st i = secPos D i) ∧
      (putWalk checks al fuel D p args pos ofs).st.status = D.status ∧
      ofs ≤ (putWalk checks al fuel D p args pos ofs).ofsE ofs := by
  intro fuel
  induction fuel with
  | zero => exact fun D p args pos ofs => ⟨fun i => rfl, fun i => rfl, rfl, le_refl _⟩
  | succ fuel ih =>
    intro D p args pos ofs
    rw [putWalk]
    cases hstep : putStep checks al D p args pos ofs with
    | cont D1 p1 args1 pos1 ofs1 =>
      dsimp only
      have hf := putStep_frame checks al D p args pos ofs
      rw [hstep] at hf
      obtain ⟨h1, h2, h3, h4⟩ := hf
      obtain ⟨g1, g2, g3, g4⟩ := ih D1 p1 args1 pos1 ofs1
      exact ⟨fun i => (g1 i).trans (h1 i), fun i => (g2 i).trans (h2 i),
        g3.trans h3, PutRes.ofsE_mono _ ofs ofs1 h4 g4⟩
    | stop D1 pos1 ofs1 =>
      dsimp only
      have hf := putStep_frame checks al D p args pos ofs
      rw [hstep] at hf
      exact hf
    | err D1 st =>
      dsimp only
      have hf := putStep_frame checks al D p args pos ofs
      rw [hstep] at hf
      exact ⟨hf.1, hf.2.1, hf.2.2, le_refl _⟩


theorem putCommit_secOfs (D : dasm_State) (e : Nat) (r : PutRes) (i : Nat)
    (h1 : ∀ j, secOfs r.st j = secOfs D j)
    (h4 : secOfs D e ≤ r.ofsE (secOfs D e)) :
    secOfs D i ≤ secOfs (putCommit e r) i := by
  cases r with
  | ok D2 pos1 ofs1 =>
    dsimp only [PutRes.st, PutRes.ofsE] at h1 h4
    dsimp only [putCommit]
    by_cases he : i = e
    · subst he
      by_cases hlen : i < D2.sections.length
      · show secOfs D i ≤
          ((listModify D2.sections i _).getD i (emptySection i)).ofs
        rw [listModify_getD_self _ _ _ _ hlen]
        exact h4
      · show secOfs D i ≤
          ((listModify D2.sections i _).getD i (emptySection i)).ofs
        rw [listModify_oob _ _ _ (by omega)]
        exact le_of_eq (h1 i).symm
    · show secOfs D i ≤
        ((listModify D2.sections e _).getD i (emptySection i)).ofs
      rw [listModify_getD_ne _ _ _ _ _ he]
      exact le_of_eq (h1 i).symm
  | fail D2 st =>
    dsimp only [PutRes.st] at h1
    exact le_of_eq (h1 i).symm

theorem dasm_put_secOfs (checks : Bool) (D : dasm_State) (start : Nat)
    (args : List Int) (i : Nat) :
    secOfs D i ≤ secOfs (dasm_put checks D start args) i := by
  unfold dasm_put
  dsimp only
  apply putCommit_secOfs
  · intro j
    refine Eq.trans ((putWalk_frame _ _ _ _ _ _ _ _).1 j) ?_
    rw [secOfs_bufWrite]
  · exact (putWalk_frame _ _ _ _ _ _ _ _).2.2.2

/-- C9: every Pass-1 call leaves every section's running byte-offset
estimate greater than or equal to its value on entry (each action adds
zero or a positive amount), hence the cumulative offset is
non-decreasing across any sequence of Pass-1 calls. -/
theorem C9_pass1_ofs_monotone (checks : Bool) (D : dasm_State)
    (start : Nat) (args : List Int) (ps : List (Nat × List Int)) (i : Nat) :
    secOfs D i ≤ secOfs (dasm_put checks D start args) i ∧
    secOfs D i ≤ secOfs (applyPuts checks D ps) i := by
  refine ⟨dasm_put_secOfs checks D start args i, ?_⟩
  induction ps generalizing D with
  | nil => exact le_refl _
  | cons pr rest ih =>
    calc secOfs D i ≤ secOfs (dasm_put checks D pr.1 pr.2) i :=
          dasm_put_secOfs checks D pr.1 pr.2 i
      _ ≤ secOfs (applyPuts checks (dasm_put checks D pr.1 pr.2) rest) i := ih _
      _ = secOfs (applyPuts checks D (pr :: rest)) i := rfl




/-- Absence of the error outcome. -/
def StepRes.noErr : StepRes → Prop
  | .err _ _ => False
  | _ => True

set_option maxHeartbeats 1000000 in
/-- With `DASM_CHECKS` off, every `CK`/`CKPL` in `dasm_put` is a no-op:
no Pass-1 step can fail. -/
theorem putStep_false_noErr (al : List Nat) (D : dasm_State) (p : Nat)
    (args : List Int) (pos : Nat) (ofs : Int) :
    (putStep false al D p args pos ofs).noErr := by
  unfold putStep
  dsimp only
  rcases Nat.lt_or_ge (al.getD p 0 >>> 16) DASM__MAX with hlt | hge
  · rw [if_neg (by omega)]
    set a := al.getD p 0 >>> 16 with ha
    clear_value a
    have h26 : a < 26 := hlt
    interval_cases a <;>
      · simp only [false_and, if_false, Bool.false_eq_true]
        repeat' split
        all_goals try trivial
        all_goals (rename_i heq; (repeat' split at heq) <;>
          (try cases heq) <;> trivial)
  · rw [if_pos hge]
    trivial

/-- With `DASM_CHECKS` off, the Pass-1 walk always completes. -/
theorem putWalk_false_ok (al : List Nat) :
    ∀ (fuel : Nat) (D : dasm_State) (p : Nat) (args : List Int) (pos : Nat)
      (ofs : Int), ∃ D1 pos1 ofs1,
      putWalk false al fuel D p args pos ofs = .ok D1 pos1 ofs1 := by
  intro fuel
  induction fuel with
  | zero => exact fun D p args pos ofs => ⟨D, pos, ofs, rfl⟩
  | succ fuel ih =>
    intro D p args pos ofs
    rw [putWalk]
    cases hstep : putStep false al D p args pos ofs with
    | cont D1 p1 args1 pos1 ofs1 => exact ih D1 p1 args1 pos1 ofs1
    | stop D1 pos1 ofs1 => exact ⟨D1, pos1, ofs1, rfl⟩
    | err D1 st =>
      have h := putStep_false_noErr al D p args pos ofs
      rw [hstep] at h
      exact absurd h (by simp [StepRes.noErr])

/-- With `DASM_CHECKS` off, `dasm_put` never reports an error: the
status field is untouched. -/
theorem dasm_put_false_status (D : dasm_State) (start : Nat)
    (args : List Int) : (dasm_put false D start args).status = D.status := by
  unfold dasm_put
  dsimp only
  obtain ⟨D1, pos1, ofs1, hw⟩ := putWalk_false_ok D.actionlist
    (D.actionlist.length + 1)
    (bufWrite D (D.sections.getD D.sectionIdx (emptySection D.sectionIdx)).pos
      (start : Int)) start args
    ((D.sections.getD D.sectionIdx (emptySection D.sectionIdx)).pos + 1)
    (D.sections.getD D.sectionIdx (emptySection D.sectionIdx)).ofs
  have hf := putWalk_frame false D.actionlist (D.actionlist.length + 1)
    (bufWrite D (D.sections.getD D.sectionIdx (emptySection D.sectionIdx)).pos
      (start : Int)) start args
    ((D.sections.getD D.sectionIdx (emptySection D.sectionIdx)).pos + 1)
    (D.sections.getD D.sectionIdx (emptySection D.sectionIdx)).ofs
  rw [hw] at hf
  rw [hw]
  dsimp only [putCommit, PutRes.st] at hf ⊢
  exact hf.2.2.1




set_option maxHeartbeats 1000000 in
/-- With `DASM_CHECKS` off, `patchrel` never reports a range error. -/
theorem patchrel_false_ok (ins : Nat) (n : Int) (p : Nat) (out : List Nat) :
    ∃ out1, patchrel false ins n p out = .ok out1 := by
  unfold patchrel
  simp only [Bool.false_eq_true, false_and, if_false]
  repeat' split
  all_goals exact ⟨_, rfl⟩

theorem patchrel_false_ne_error (ins : Nat) (n : Int) (p : Nat)
    (out : List Nat) (st : Nat) :
    patchrel false ins n p out ≠ .error st := by
  obtain ⟨o1, ho⟩ := patchrel_false_ok ins n p out
  simp [ho]

/-- Absence of the error outcome for a Pass-3 step. -/
def EncStepRes.noErr : EncStepRes → Prop
  | .err _ => False
  | _ => True

set_option maxHeartbeats 1000000 in
/-- With `DASM_CHECKS` off, no Pass-3 step can fail: `dasm_encode`
performs no relocation-range or undefined-label checks. -/
theorem encStep_false_noErr (D : dasm_State) (secn p bi : Nat)
    (out : List Nat) (gout : List (Nat × Int)) :
    (encStep false D secn p bi out gout).noErr := by
  unfold encStep
  dsimp only
  rcases Nat.lt_or_ge (D.actionlist.getD p 0 >>> 16) DASM__MAX with hlt | hge
  · rw [if_neg (by omega)]
    set a := D.actionlist.getD p 0 >>> 16 with ha
    clear_value a
    have h26 : a < 26 := hlt
    interval_cases a <;>
      · simp only [Bool.false_eq_true, false_and, if_false]
        repeat' split
        all_goals try trivial
        all_goals (rename_i heq; exact absurd heq (patchrel_false_ne_error _ _ _ _ _))
  · rw [if_pos hge]
    trivial


/-- With `DASM_CHECKS` off, the Pass-3 batch walk always completes. -/
theorem encWalk_false_ok (D : dasm_State) (secn : Nat) :
    ∀ (fuel p bi : Nat) (out : List Nat) (gout : List (Nat × Int)),
      ∃ r, encWalk false D secn fuel p bi out gout = .ok r := by
  intro fuel
  induction fuel with
  | zero => exact fun p bi out gout => ⟨(bi, out, gout), rfl⟩
  | succ fuel ih =>
    intro p bi out gout
    rw [encWalk]
    cases hstep : encStep false D secn p bi out gout with
    | cont p1 bi1 out1 gout1 => exact ih p1 bi1 out1 gout1
    | stop bi1 out1 gout1 => exact ⟨(bi1, out1, gout1), rfl⟩
    | err st =>
      have h := encStep_false_noErr D secn p bi out gout
      rw [hstep] at h
      exact absurd h (by simp [EncStepRes.noErr])

/-- With `DASM_CHECKS` off, the per-section Pass-3 loop always
completes. -/
theorem encSec_false_ok (D : dasm_State) (secn : Nat) :
    ∀ (fuel bi : Nat) (out : List Nat) (gout : List (Nat × Int)),
      ∃ r, encSec false D secn fuel bi out gout = .ok r := by
  intro fuel
  induction fuel with
  | zero => exact fun bi out gout => ⟨(out, gout), rfl⟩
  | succ fuel ih =>
    intro bi out gout
    rw [encSec]
    split
    · exact ⟨(out, gout), rfl⟩
    · obtain ⟨⟨bi1, out1, gout1⟩, hw⟩ := encWalk_false_ok D secn
        (D.actionlist.length + 1)
        ((D.sections.getD secn (emptySection secn)).buf bi).toNat (bi + 1) out
        gout
      dsimp only
      rw [hw]
      exact ih bi1 out1 gout1

/-- With `DASM_CHECKS` off, the whole Pass-3 section fold always
completes. -/
theorem encodeAll_false_ok (D : dasm_State) :
    ∃ r, encodeAll false D = .ok r := by
  unfold encodeAll
  generalize List.range D.sections.length = l
  suffices h : ∀ (l : List Nat) (out : List Nat) (gout : List (Nat × Int)),
      ∃ r, l.foldl
        (fun acc secn =>
          match acc with
          | .error st => .error st
          | .ok (out, gout) =>
              encSec false D secn
                (DASM_POS2IDX ((D.sections.getD secn (emptySection secn)).pos) + 1)
                0 out gout)
        (Except.ok (out, gout)) = .ok r by
    exact h l [] []
  intro l
  induction l with
  | nil => exact fun out gout => ⟨(out, gout), rfl⟩
  | cons secn rest ih =>
    intro out gout
    rw [List.foldl_cons]
    obtain ⟨⟨out1, gout1⟩, hs⟩ := encSec_false_ok D secn
      (DASM_POS2IDX ((D.sections.getD secn (emptySection secn)).pos) + 1) 0 out
      gout
    dsimp only
    rw [hs]
    exact ih out1 gout1

/-- With `DASM_CHECKS` off, `dasm_encode` returns `DASM_S_PHASE` exactly
when the write cursor misses `base + codesize`, and `DASM_S_OK` exactly
when it lands there; no other status is possible. -/
theorem dasm_encode_false_status (D : dasm_State) :
    ((dasm_encode false D).1 = DASM_S_PHASE ↔
      D.codesize ≠ (4 * ((dasm_encode false D).2.1.length : Int))) ∧
    ((dasm_encode false D).1 = DASM_S_OK ↔
      D.codesize = (4 * ((dasm_encode false D).2.1.length : Int))) := by
  obtain ⟨⟨out, gout⟩, hr⟩ := encodeAll_false_ok D
  unfold dasm_encode
  rw [hr]
  dsimp only
  rw [List.length_reverse]
  by_cases hc : D.codesize = (4 * (out.length : Int))
  · rw [if_neg (by omega)]
    constructor
    · constructor
      · intro hp; exact absurd hp (by decide)
      · intro hne; exact absurd hc hne
    · exact ⟨fun _ => hc, fun _ => rfl⟩
  · rw [if_pos (by omega)]
    constructor
    · exact ⟨fun _ => hc, fun _ => rfl⟩
    · constructor
      · intro hp; exact absurd hp (by decide)
      · intro heq; exact absurd heq hc




/-- C10: when the engine is built without `DASM_CHECKS` (the default
build, `checks = false`), every `CK`/`CKPL` validity check is a no-op:
`dasm_put` never reports a range error (the status is untouched), the
`DASM_IMM` action stores `((n >> shift) & mask) << ofs` unconditionally
(an out-of-range immediate is silently masked into the field), and
`dasm_encode` performs no relocation-range or undefined-label checks (it
can only return `DASM_S_OK` or `DASM_S_PHASE`). -/
theorem C10_unchecked_build_no_checks :
    (∀ (D : dasm_State) (start : Nat) (args : List Int),
      (dasm_put false D start args).status = D.status) ∧
    (∀ (al : List Nat) (D : dasm_State) (p : Nat) (args : List Int)
      (pos : Nat) (ofs : Int), al.getD p 0 >>> 16 = DASM_IMM →
      putStep false al D p args pos ofs = .cont
        (bufWrite D pos
          (((landI (sar (int32 (args.headD 0)) ((al.getD p 0 >>> 10) &&& 31))
            (2 ^ ((al.getD p 0 >>> 5) &&& 31) - 1)) <<<
              (al.getD p 0 &&& 31) : Nat)))
        (p + 1) args.tail (pos + 1) ofs) ∧
    (∀ D : dasm_State, (dasm_encode false D).1 = DASM_S_OK ∨
      (dasm_encode false D).1 = DASM_S_PHASE) := by
  refine ⟨dasm_put_false_status, ?_, ?_⟩
  · intro al D p args pos ofs hIMM
    unfold putStep
    dsimp only
    rw [hIMM]
    norm_num [DASM_IMM, DASM__MAX, DASM_REL_PC]
  · intro D
    by_cases hc : D.codesize = (4 * ((dasm_encode false D).2.1.length : Int))
    · exact Or.inl ((dasm_encode_false_status D).2.mpr hc)
    · exact Or.inr ((dasm_encode_false_status D).1.mpr hc)


theorem C10_unchecked_build_no_checks_witness :
    (0x90085 : Nat) >>> 16 = DASM_IMM ∧
    bufRead (putStep false [0x90085, 0] demoStart 0 [0xABC] 0 0).st 0 = 0x180 ∧
    (dasm_put false demoStart 0 []).status = DASM_S_OK ∧
    ((dasm_encode false demoStart).1 = DASM_S_OK ∨
      (dasm_encode false demoStart).1 = DASM_S_PHASE) := by
  refine ⟨by decide, ?_, ?_, C10_unchecked_build_no_checks.2.2 demoStart⟩
  · rw [C10_unchecked_build_no_checks.2.1 [0x90085, 0] demoStart 0 [0xABC] 0 0
      (by decide)]
    decide
  · rw [C10_unchecked_build_no_checks.1 demoStart 0 []]
    decide




/-- `n & 0xfff = 0` on the two's-complement image is divisibility by
4096. -/
theorem landI_fff_zero_iff (n : Int) :
    landI n 0xfff = 0 ↔ ((4096 : Int) ∣ n) := by
  unfold landI tc64
  rw [show (0xfff : Nat) = 2 ^ 12 - 1 from rfl, Nat.and_pow_two_sub_one_eq_mod]
  norm_num
  omega

/-- `n & 3 = 0` on the two's-complement image is divisibility by 4. -/
theorem landI_3_zero_iff (n : Int) :
    landI n 3 = 0 ↔ ((4 : Int) ∣ n) := by
  unfold landI tc64
  rw [show (3 : Nat) = 2 ^ 2 - 1 from rfl, Nat.and_pow_two_sub_one_eq_mod]
  norm_num
  omega

/-- The C arithmetic shift is Euclidean division by the (positive)
power of two. -/
theorem sar_eq_div (n : Int) (k : Nat) : sar n k = n / 2 ^ k := by
  unfold sar
  rw [Int.fdiv_eq_ediv]
  positivity


/-- C3: Pass-3 relocation range checking (`DASM_CHECKS` build).  For
each addressing mode, a displacement satisfying the mode's rule is
encoded successfully and one outside it yields `DASM_S_RANGE_REL` with
the originating action-list offset in the low bits; the closing facts
run `dasm_encode` on a linked one-branch program at the word-label14
boundary (`±0x7ffc` encodes, `±0x8000` is rejected with the status
carrying the relocation action's offset 1). -/
theorem C3_patchrel_ranges (ins : Nat) (n : Int) (p : Nat) (out : List Nat) :
    (ins &&& 0xf000 = 0 →
      (((∃ out1, patchrel true ins n p out = .ok out1) ↔
          ((4096 : Int) ∣ n) ∧ -0x100000 < n / 4096 ∧ n / 4096 < 0x100000) ∧
        (¬(((4096 : Int) ∣ n) ∧ -0x100000 < n / 4096 ∧ n / 4096 < 0x100000) →
          patchrel true ins n p out = .error (DASM_S_RANGE_REL ||| p)))) ∧
    (ins &&& 0xf000 = 0x1000 →
      (((∃ out1, patchrel true ins n p out = .ok out1) ↔
          -0x100000 < n ∧ n < 0x100000) ∧
        (¬(-0x100000 < n ∧ n < 0x100000) →
          patchrel true ins n p out = .error (DASM_S_RANGE_REL ||| p)))) ∧
    (ins &&& 0xf000 = 0x2000 →
      (((∃ out1, patchrel true ins n p out = .ok out1) ↔
          ((4 : Int) ∣ n) ∧ -0x8000 < n ∧ n < 0x8000) ∧
        (¬(((4 : Int) ∣ n) ∧ -0x8000 < n ∧ n < 0x8000) →
          patchrel true ins n p out = .error (DASM_S_RANGE_REL ||| p)))) ∧
    (ins &&& 0xf000 = 0x3000 →
      (((∃ out1, patchrel true ins n p out = .ok out1) ↔
          ((4 : Int) ∣ n) ∧ -0x100000 < n ∧ n < 0x100000) ∧
        (¬(((4 : Int) ∣ n) ∧ -0x100000 < n ∧ n < 0x100000) →
          patchrel true ins n p out = .error (DASM_S_RANGE_REL ||| p)))) ∧
    (ins &&& 0xf000 ≠ 0 → ins &&& 0xf000 ≠ 0x1000 → ins &&& 0xf000 ≠ 0x2000 →
      ins &&& 0xf000 ≠ 0x3000 →
      (((∃ out1, patchrel true ins n p out = .ok out1) ↔
          ((4 : Int) ∣ n) ∧ -0x8000000 < n ∧ n < 0x8000000) ∧
        (¬(((4 : Int) ∣ n) ∧ -0x8000000 < n ∧ n < 0x8000000) →
          patchrel true ins n p out = .error (DASM_S_RANGE_REL ||| p)))) ∧
    (dasm_encode true (relDemo 0x7ffc) = (DASM_S_OK, [0x1403ffe0], []) ∧
      (dasm_encode true (relDemo (-0x7ffc))).1 = DASM_S_OK ∧
      (dasm_encode true (relDemo 0x8000)).1 = DASM_S_RANGE_REL ||| 1 ∧
      (dasm_encode true (relDemo (-0x8000))).1 = DASM_S_RANGE_REL ||| 1) := by
  have hdiv12 : ∀ m : Int, sar m 12 = m / 4096 := fun m => by
    rw [sar_eq_div]; norm_num
  refine ⟨?_, ?_, ?_, ?_, ?_, by decide⟩
  · intro hm
    unfold patchrel
    dsimp only
    rw [if_pos hm]
    have hr : (landI n 0xfff = 0 ∧ -0x100000 < sar n 12 ∧ sar n 12 < 0x100000) ↔
        (((4096 : Int) ∣ n) ∧ -0x100000 < n / 4096 ∧ n / 4096 < 0x100000) := by
      rw [landI_fff_zero_iff, hdiv12]
    by_cases hc : landI n 0xfff = 0 ∧ -0x100000 < sar n 12 ∧ sar n 12 < 0x100000
    · rw [if_neg (by simp [hc])]
      exact ⟨⟨fun _ => hr.mp hc, fun _ => ⟨_, rfl⟩⟩, fun hnr => absurd (hr.mp hc) hnr⟩
    · rw [if_pos (by simp [hc])]
      exact ⟨⟨fun ⟨o, ho⟩ => Except.noConfusion ho, fun hrr => absurd (hr.mpr hrr) hc⟩,
        fun _ => rfl⟩
  · intro hm
    unfold patchrel
    dsimp only
    rw [if_neg (by omega), if_pos hm]
    by_cases hc : -0x100000 < n ∧ n < 0x100000
    · rw [if_neg (by simp [hc])]
      exact ⟨⟨fun _ => hc, fun _ => ⟨_, rfl⟩⟩, fun hnr => absurd hc hnr⟩
    · rw [if_pos (by simp [hc])]
      exact ⟨⟨fun ⟨o, ho⟩ => Except.noConfusion ho, fun hrr => absurd hrr hc⟩,
        fun _ => rfl⟩
  · intro hm
    unfold patchrel
    dsimp only
    rw [if_neg (by omega), if_neg (by omega), if_pos hm]
    have hr : (landI n 3 = 0 ∧ -0x8000 < n ∧ n < 0x8000) ↔
        (((4 : Int) ∣ n) ∧ -0x8000 < n ∧ n < 0x8000) := by
      rw [landI_3_zero_iff]
    by_cases hc : landI n 3 = 0 ∧ -0x8000 < n ∧ n < 0x8000
    · rw [if_neg (by simp [hc])]
      exact ⟨⟨fun _ => hr.mp hc, fun _ => ⟨_, rfl⟩⟩, fun hnr => absurd (hr.mp hc) hnr⟩
    · rw [if_pos (by simp [hc])]
      exact ⟨⟨fun ⟨o, ho⟩ => Except.noConfusion ho, fun hrr => absurd (hr.mpr hrr) hc⟩,
        fun _ => rfl⟩
  · intro hm
    unfold patchrel
    dsimp only
    rw [if_neg (by omega), if_neg (by omega), if_neg (by omega), if_pos hm]
    have hr : (landI n 3 = 0 ∧ n > -0x100000 ∧ n < 0x100000) ↔
        (((4 : Int) ∣ n) ∧ -0x100000 < n ∧ n < 0x100000) := by
      rw [landI_3_zero_iff]
    by_cases hc : landI n 3 = 0 ∧ n > -0x100000 ∧ n < 0x100000
    · rw [if_neg (by simp [hc])]
      exact ⟨⟨fun _ => hr.mp hc, fun _ => ⟨_, rfl⟩⟩, fun hnr => absurd (hr.mp hc) hnr⟩
    · rw [if_pos (by simp [hc])]
      exact ⟨⟨fun ⟨o, ho⟩ => Except.noConfusion ho, fun hrr => absurd (hr.mpr hrr) hc⟩,
        fun _ => rfl⟩
  · intro h0 h1 h2 h3
    unfold patchrel
    dsimp only
    rw [if_neg h0, if_neg h1, if_neg h2, if_neg h3]
    have hr : (landI n 3 = 0 ∧ n > -0x8000000 ∧ n < 0x8000000) ↔
        (((4 : Int) ∣ n) ∧ -0x8000000 < n ∧ n < 0x8000000) := by
      rw [landI_3_zero_iff]
    by_cases hc : landI n 3 = 0 ∧ n > -0x8000000 ∧ n < 0x8000000
    · rw [if_neg (by simp [hc])]
      exact ⟨⟨fun _ => hr.mp hc, fun _ => ⟨_, rfl⟩⟩, fun hnr => absurd (hr.mp hc) hnr⟩
    · rw [if_pos (by simp [hc])]
      exact ⟨⟨fun ⟨o, ho⟩ => Except.noConfusion ho, fun hrr => absurd (hr.mpr hrr) hc⟩,
        fun _ => rfl⟩


theorem C3_patchrel_ranges_witness :
    (∃ out1, patchrel true ((7 <<< 16) ||| 0x2000) 0x7ffc 1 [0x14000000] =
      .ok out1) ∧
    patchrel true ((7 <<< 16) ||| 0x2000) 0x8000 1 [0x14000000] =
      .error (DASM_S_RANGE_REL ||| 1) := by
  constructor
  · exact ((C3_patchrel_ranges ((7 <<< 16) ||| 0x2000) 0x7ffc 1
      [0x14000000]).2.2.1 (by decide)).1.mpr (by norm_num)
  · exact ((C3_patchrel_ranges ((7 <<< 16) ||| 0x2000) 0x8000 1
      [0x14000000]).2.2.1 (by decide)).2 (by norm_num)




/-- State with PC label 0 referenced (forward) but never defined. -/
def demoURef : dasm_State := applyPuts true demoStart [(0, [0])]

/-- C8: `dasm_getpclabel` returns the value stored at the label's
resolved position when the slot is negative (a defined label), `-1` when
the slot is positive (referenced but undefined), and `-2` when the slot
is zero (unused) or the index is outside the PC label array. -/
theorem C8_dasm_getpclabel (D : dasm_State) (pc : Nat) :
    (pc < D.pclabels.length →
      (D.pclabels.getD pc 0 < 0 →
        dasm_getpclabel D pc = bufRead D (-(D.pclabels.getD pc 0)).toNat) ∧
      (0 < D.pclabels.getD pc 0 → dasm_getpclabel D pc = -1) ∧
      (D.pclabels.getD pc 0 = 0 → dasm_getpclabel D pc = -2)) ∧
    (D.pclabels.length ≤ pc → dasm_getpclabel D pc = -2) := by
  unfold dasm_getpclabel
  constructor
  · intro h
    rw [if_pos h]
    refine ⟨fun hneg => ?_, fun hpos => ?_, fun hz => ?_⟩
    · rw [if_pos hneg]
    · rw [if_neg (by omega), if_pos hpos]
    · rw [if_neg (by omega), if_neg (by omega)]
  · intro h
    rw [if_neg (by omega)]

theorem C8_dasm_getpclabel_witness :
    dasm_getpclabel demoLinked 0 = 16 ∧
    dasm_getpclabel demoURef 0 = -1 ∧
    dasm_getpclabel demoStart 0 = -2 ∧
    dasm_getpclabel demoStart 7 = -2 := by
  refine ⟨?_, ?_, ?_, ?_⟩
  · rw [((C8_dasm_getpclabel demoLinked 0).1 (by decide)).1 (by decide)]
    decide
  · exact ((C8_dasm_getpclabel demoURef 0).1 (by decide)).2.1 (by decide)
  · exact ((C8_dasm_getpclabel demoStart 0).1 (by decide)).2.2 (by decide)
  · exact (C8_dasm_getpclabel demoStart 7).2 (by decide)




/-- The spec's wide-move acceptance shape: exactly one aligned 16-bit
lane of `x` is non-zero and all other bits are zero (lanes `0..3` for
64-bit operands, `0..1` for 32-bit operands). -/
def oneLane (x : Nat) (bit64 : Bool) : Prop :=
  ∃ i, i < (if bit64 then 4 else 2) ∧
    x &&& (0xffff <<< (16 * i)) ≠ 0 ∧
    x &&& ((2 ^ 64 - 1) ^^^ (0xffff <<< (16 * i))) = 0

instance (x : Nat) (b : Bool) : Decidable (oneLane x b) := by
  unfold oneLane
  infer_instance

theorem wideLane_isSome_iff (x : Nat) :
    ∀ (k i : Nat), (wideLane x i k).isSome ↔
      ∃ j, i ≤ j ∧ j < i + k ∧
        x &&& (0xffff <<< (16 * j)) ≠ 0 ∧
        x &&& ((2 ^ 64 - 1) ^^^ (0xffff <<< (16 * j))) = 0 := by
  intro k
  induction k with
  | zero =>
    intro i
    simp only [wideLane, Option.isSome_none, Bool.false_eq_true, false_iff]
    rintro ⟨j, h1, h2, -⟩
    omega
  | succ k ih =>
    intro i
    rw [wideLane]
    split
    · next hc =>
      simp only [Option.isSome_some, true_iff]
      exact ⟨i, le_refl i, by omega, hc⟩
    · next hc =>
      rw [ih (i + 1)]
      constructor
      · rintro ⟨j, h1, h2, h3⟩
        exact ⟨j, by omega, by omega, h3⟩
      · rintro ⟨j, h1, h2, h3⟩
        rcases Nat.eq_or_lt_of_le h1 with rfl | hlt
        · exact absurd h3 hc
        · exact ⟨j, by omega, by omega, h3⟩

/-- `wide_imm` accepts exactly zero and the one-non-zero-lane values. -/
theorem wide_imm_isSome_iff (x : Nat) (b : Bool) :
    (wide_imm x b).isSome ↔ (x = 0 ∨ oneLane x b) := by
  unfold wide_imm
  split
  · next h => simp [h]
  · next h =>
    rw [wideLane_isSome_iff]
    unfold oneLane
    constructor
    · rintro ⟨j, -, h2, h3⟩
      exact Or.inr ⟨j, by omega, h3⟩
    · rintro (rfl | ⟨j, h1, h2⟩)
      · exact absurd rfl h
      · exact ⟨j, by omega, by omega, h2⟩


/-- The acceptance condition exactly as the claim states it: a
move-wide lane pattern, an inverted lane pattern minus the two 32-bit
special values, or a logical-bitmask table member. -/
def claimMovCond (l : Int) (bit64 : Bool) : Prop :=
  oneLane (tc64 l) bit64 ∨
  (oneLane (tc64 (-1 - l)) bit64 ∧
    ¬(bit64 = false ∧ (l = 0xffff0000 ∨ l = 0x0000ffff))) ∨
  (getnsrencode (tc64 l) bit64).isSome

/-- The claim's condition amended by the two zero cases the code also
accepts: the value 0 itself (`MOVZ #0`) and an all-ones value whose
complement is 0 (`MOVN #0`). -/
def amendedMovCond (l : Int) (bit64 : Bool) : Prop :=
  (tc64 l = 0 ∨ oneLane (tc64 l) bit64) ∨
  ((tc64 (-1 - l) = 0 ∨ oneLane (tc64 (-1 - l)) bit64) ∧
    ¬(bit64 = false ∧ (l = 0xffff0000 ∨ l = 0x0000ffff))) ∨
  (getnsrencode (tc64 l) bit64).isSome

/-- C4 (amended): the `DASM_IMMMOV` decision chain accepts a value if
and only if the amended condition holds. -/
theorem C4_immmov_amended (l : Int) (bit64 : Bool) :
    (immmovResult l bit64).isSome ↔ amendedMovCond l bit64 := by
  unfold immmovResult amendedMovCond
  cases hw : wide_imm (tc64 l) bit64 with
  | some e =>
    have hA : tc64 l = 0 ∨ oneLane (tc64 l) bit64 :=
      (wide_imm_isSome_iff _ _).mp (by rw [hw]; rfl)
    simp [hA]
  | none =>
    have hA : ¬(tc64 l = 0 ∨ oneLane (tc64 l) bit64) := by
      rw [← wide_imm_isSome_iff _ bit64, hw]
      simp
    cases hwc : wide_imm (tc64 (-1 - l)) bit64 with
    | some e =>
      have hB : tc64 (-1 - l) = 0 ∨ oneLane (tc64 (-1 - l)) bit64 :=
        (wide_imm_isSome_iff _ _).mp (by rw [hwc]; rfl)
      dsimp only
      split
      · next hE => simp [hA, hB, hE]
      · next hE =>
        push_neg at hE
        cases ht : getnsrencode (tc64 l) bit64 <;> simp_all
    | none =>
      have hB : ¬(tc64 (-1 - l) = 0 ∨ oneLane (tc64 (-1 - l)) bit64) := by
        rw [← wide_imm_isSome_iff _ bit64, hwc]
        simp
      dsimp only
      cases ht : getnsrencode (tc64 l) bit64 <;> simp_all


set_option maxRecDepth 20000 in
theorem nsrmap64_no_zero :
    nsrmap64.all (fun pr => decide (pr.1 ≠ 0)) = true := by
  rw [nsrmap64, List.all_append, List.all_flatMap, List.all_flatMap]
  decide

theorem getnsrencode_zero64 : getnsrencode 0 true = none := by
  unfold getnsrencode
  rw [show ((if true then nsrmap64 else nsrmap32) = nsrmap64) from rfl]
  rw [List.find?_eq_none.mpr]
  · rfl
  intro x hx
  have h := List.all_eq_true.mp nsrmap64_no_zero x hx
  simpa using h

/-- C4 counterexample: the value 0 has no non-zero lane, its complement
has every lane non-zero, and it is not in the logical-bitmask table, so
the claim as stated rejects it; yet the code accepts it, emitting the
move-wide word `0x52800000` (`MOVZ` with immediate 0), with no error in
the checked build. -/
theorem C4_immmov_counterexample :
    immmovResult 0 true = some 0x52800000 ∧
    ¬claimMovCond 0 true ∧
    (putStep true [(16 <<< 16) ||| 1, 0] demoStart 0 [0] 0 0).st.status =
      DASM_S_OK ∧
    bufRead (putStep true [(16 <<< 16) ||| 1, 0] demoStart 0 [0] 0 0).st 0 =
      0x52800000 := by
  refine ⟨by decide, ?_, by decide, by decide⟩
  rintro (h1 | ⟨h2, -⟩ | h3)
  · exact absurd h1 (by decide)
  · exact absurd h2 (by decide)
  · rw [show tc64 0 = 0 from rfl, getnsrencode_zero64] at h3
    exact absurd h3 (by simp)

end DynasmA64


namespace DynasmA64

set_option maxRecDepth 200000 in
/-- Every 64-bit table entry's `(N, imms, immr)` encoding decodes back
to the materialized immediate. -/
theorem nsrmap64_roundtrip :
    nsrmap64.all (fun pr => nsrDecode 64 pr.2 == some pr.1) = true := by
  rw [nsrmap64, List.all_append]
  simp only [List.all_flatMap]
  decide

set_option maxRecDepth 200000 in
/-- Every 32-bit table entry's encoding decodes back to the
materialized immediate. -/
theorem nsrmap32_roundtrip :
    nsrmap32.all (fun pr => nsrDecode 32 pr.2 == some pr.1) = true := by
  rw [nsrmap32]
  simp only [List.all_flatMap]
  decide

theorem nsrmap64_decode (pr : Nat × Nat) (h : pr ∈ nsrmap64) :
    nsrDecode 64 pr.2 = some pr.1 := by
  have := List.all_eq_true.mp nsrmap64_roundtrip pr h
  simpa using this

theorem nsrmap32_decode (pr : Nat × Nat) (h : pr ∈ nsrmap32) :
    nsrDecode 32 pr.2 = some pr.1 := by
  have := List.all_eq_true.mp nsrmap32_roundtrip pr h
  simpa using this

end DynasmA64

namespace DynasmA64

/-- C1: logical-bitmask immediates.  (i)/(ii): every table entry decodes
back to its immediate.  (iii)/(iv): for every value in the materialized
set the lookup succeeds and the found encoding decodes back to the
value.  (v): a value not in the set makes the `DASM_IMMNSR` action fail
with `DASM_S_RANGE_I` (checked build), committing nothing: no truncated
encoding is ever written. -/
theorem C1_nsr_roundtrip_reject :
    (∀ pr ∈ nsrmap64, nsrDecode 64 pr.2 = some pr.1) ∧
    (∀ pr ∈ nsrmap32, nsrDecode 32 pr.2 = some pr.1) ∧
    (∀ v ∈ nsrmap64.map Prod.fst,
      ∃ e, getnsrencode v true = some e ∧ nsrDecode 64 e = some v) ∧
    (∀ v ∈ nsrmap32.map Prod.fst,
      ∃ e, getnsrencode v false = some e ∧ nsrDecode 32 e = some v) ∧
    (∀ (D : dasm_State) (start : Nat) (l : Int) (bit64 : Bool),
      D.actionlist.getD start 0 = (11 <<< 16) ||| (if bit64 then 1 else 0) →
      getnsrencode (tc64 l) bit64 = none →
      (dasm_put true D start [l]).status = DASM_S_RANGE_I ||| start ∧
      (∀ i, secOfs (dasm_put true D start [l]) i = secOfs D i) ∧
      (∀ i, secPos (dasm_put true D start [l]) i = secPos D i)) := by
  refine ⟨nsrmap64_decode, nsrmap32_decode, ?_, ?_, ?_⟩
  · intro v hv
    rcases List.mem_map.mp hv with ⟨pr, hpr, rfl⟩
    have hsome : (nsrmap64.find? (fun q => q.1 == pr.1)).isSome :=
      List.find?_isSome.mpr ⟨pr, hpr, by simp⟩
    obtain ⟨q, hq⟩ := Option.isSome_iff_exists.mp hsome
    have hq1 : q.1 = pr.1 := by simpa using List.find?_some hq
    refine ⟨q.2, ?_, ?_⟩
    · unfold getnsrencode
      rw [show (if true then nsrmap64 else nsrmap32) = nsrmap64 from rfl, hq]
      rfl
    · rw [nsrmap64_decode q (List.mem_of_find?_eq_some hq), hq1]
  · intro v hv
    rcases List.mem_map.mp hv with ⟨pr, hpr, rfl⟩
    have hsome : (nsrmap32.find? (fun q => q.1 == pr.1)).isSome :=
      List.find?_isSome.mpr ⟨pr, hpr, by simp⟩
    obtain ⟨q, hq⟩ := Option.isSome_iff_exists.mp hsome
    have hq1 : q.1 = pr.1 := by simpa using List.find?_some hq
    refine ⟨q.2, ?_, ?_⟩
    · unfold getnsrencode
      rw [show (if false then nsrmap64 else nsrmap32) = nsrmap32 from rfl, hq]
      rfl
    · rw [nsrmap32_decode q (List.mem_of_find?_eq_some hq), hq1]
  · intro D start l bit64 hal hnone
    have hstep : ∀ D1 pos ofs, putStep true D.actionlist D1 start [l] pos ofs =
        .err D1 (DASM_S_RANGE_I ||| start) := by
      intro D1 pos ofs
      unfold putStep
      dsimp only
      rw [hal]
      cases bit64 with
      | true =>
        norm_num [DASM__MAX, DASM_REL_PC]
        rw [if_neg (by decide), if_neg (by decide), if_pos (by decide), hnone]
      | false =>
        norm_num [DASM__MAX, DASM_REL_PC]
        intro _
        rw [hnone]
    unfold dasm_put
    dsimp only
    rw [putWalk, hstep]
    exact ⟨rfl, fun i => secOfs_bufWrite D _ _ i, fun i => secPos_bufWrite D _ _ i⟩

theorem one_mem_nsrmap64 : (1 : Nat) ∈ nsrmap64.map Prod.fst := by
  refine List.mem_map.mpr ⟨(1, 0x400000), ?_, rfl⟩
  rw [nsrmap64]
  refine List.mem_append.mpr (Or.inr ?_)
  refine List.mem_flatMap.mpr ⟨1, ?_, ?_⟩
  · exact List.mem_range'_1.mpr ⟨by omega, by omega⟩
  · exact List.mem_map.mpr ⟨0, List.mem_range.mpr (by omega), rfl⟩

set_option maxRecDepth 200000 in
theorem nsrmap64_no_five : nsrmap64.all (fun pr => pr.1 != 5) = true := by
  rw [nsrmap64, List.all_append]
  simp only [List.all_flatMap]
  decide

theorem getnsrencode_five_none : getnsrencode (tc64 5) true = none := by
  have hf : nsrmap64.find? (fun q => q.1 == tc64 5) = none := by
    apply List.find?_eq_none.mpr
    intro x hx
    have hne := List.all_eq_true.mp nsrmap64_no_five x hx
    simp only [bne_iff_ne, ne_eq] at hne
    simp only [beq_iff_eq]
    rw [show tc64 5 = 5 from rfl]
    exact hne
  unfold getnsrencode
  rw [show (if true then nsrmap64 else nsrmap32) = nsrmap64 from rfl, hf]
  rfl

/-- C1 witness: `1` is in the 64-bit table and its looked-up encoding
decodes back to `1`; the non-representable value `5` makes the checked
`DASM_IMMNSR` action fail with `DASM_S_RANGE_I`. -/
theorem C1_nsr_roundtrip_reject_witness :
    (1 : Nat) ∈ nsrmap64.map Prod.fst ∧
    (∃ e, getnsrencode 1 true = some e ∧ nsrDecode 64 e = some 1) ∧
    (dasm_put true (dasm_setup 1 [(11 <<< 16) ||| 1, 0] 0 0) 0 [5]).status =
      DASM_S_RANGE_I ||| 0 :=
  ⟨one_mem_nsrmap64,
   C1_nsr_roundtrip_reject.2.2.1 1 one_mem_nsrmap64,
   (C1_nsr_roundtrip_reject.2.2.2.2 (dasm_setup 1 [(11 <<< 16) ||| 1, 0] 0 0)
     0 5 true rfl getnsrencode_five_none).1⟩

end DynasmA64

namespace DynasmA64


/-- C2: Pass 3 displacement arithmetic.  (i)/(ii) For every resolved
(`n ≥ 0`) label reference — `DASM_REL_PC` and `DASM_REL_LG` alike —
`encStep` hands `patchrel` the displacement `target - site`: the
resolved byte offset read from the label record (`bufRead`) minus the
byte offset `4*out.length - 4` of the relocation-site word (the word
just emitted).  The formula does not look at whether the reference was
emitted before or after the label's definition, so forward and
backward references to one label patch against the same resolved
offset.  (iii) In the concrete one-section scenario `demoLinked`
(forward branch, three `NOP`s, the PC-label 0 definition, backward
branch) the forward branch word becomes `0x14000004` — word-26
displacement `4` words = 16 bytes, exactly the byte distance from the
branch to the label's final offset `dasm_getpclabel = 16` — and the
backward branch at offset 16 becomes `0x14000000` (displacement 0),
both against that same offset. -/
theorem C2_relocation_displacement :
    (∀ (checks : Bool) (D : dasm_State) (secn p bi : Nat) (out : List Nat)
      (gout : List (Nat × Int)),
      D.actionlist.getD p 0 >>> 16 = 7 →
      0 ≤ (D.sections.getD secn (emptySection secn)).buf bi →
      encStep checks D secn p bi out gout =
        (match patchrel checks (D.actionlist.getD p 0)
            (bufRead D
                ((D.sections.getD secn (emptySection secn)).buf bi).toNat -
              (4 * out.length : Int) + 4) p out with
         | .ok out1 => EncStepRes.cont (p + 1) (bi + 1) out1 gout
         | .error st => EncStepRes.err st)) ∧
    (∀ (checks : Bool) (D : dasm_State) (secn p bi : Nat) (out : List Nat)
      (gout : List (Nat × Int)),
      D.actionlist.getD p 0 >>> 16 = 5 →
      0 ≤ (D.sections.getD secn (emptySection secn)).buf bi →
      encStep checks D secn p bi out gout =
        (match patchrel checks (D.actionlist.getD p 0)
            (bufRead D
                ((D.sections.getD secn (emptySection secn)).buf bi).toNat -
              (4 * out.length : Int) + 4) p out with
         | .ok out1 => EncStepRes.cont (p + 1) (bi + 1) out1 gout
         | .error st => EncStepRes.err st)) ∧
    (dasm_encode true demoLinked).1 = DASM_S_OK ∧
    (dasm_encode true demoLinked).2.1 =
      [0x14000004, 0xd503201f, 0xd503201f, 0xd503201f, 0x14000000] ∧
    dasm_getpclabel demoLinked 0 = 16 := by
  refine ⟨?_, ?_, by decide, by decide, by decide⟩
  · intro checks D secn p bi out gout hact hnn
    unfold encStep
    dsimp only
    rw [hact]
    rw [if_neg (by norm_num [DASM__MAX])]
    rw [show decide (DASM_ALIGN ≤ 7) = true from rfl]
    dsimp only
    rw [if_pos rfl, if_pos rfl]
    rw [if_neg fun hc => absurd hc.2 (not_lt.mpr hnn)]
  · intro checks D secn p bi out gout hact hnn
    unfold encStep
    dsimp only
    rw [hact]
    rw [if_neg (by norm_num [DASM__MAX])]
    rw [show decide (DASM_ALIGN ≤ 5) = true from rfl]
    dsimp only
    rw [if_pos rfl, if_pos rfl]
    rw [if_neg fun hc => absurd hc.2 (not_lt.mpr hnn)]

/-- A post-link state for a one-instruction `B <local>` program whose
relocation is a `DASM_REL_LG` (word-label26) reference to local label
1, resolved to byte offset 8: buffer cell 1 points at the label record
in cell 3. -/
def relLGDemo : dasm_State :=
  { actionlist := [0x14000000, (5 <<< 16) ||| 0x5000 ||| 1, 0]
    lglabels := List.replicate 10 0
    pclabels := []
    sections := [⟨fun i =>
      if i = 0 then 0 else if i = 1 then 3 else if i = 2 then 3 else
      if i = 3 then 8 else 0, 4, 4⟩]
    sectionIdx := 0
    codesize := 4
    status := DASM_S_OK }

/-- C2 witness: the forward-branch `DASM_REL_PC` relocation of the demo
and a resolved `DASM_REL_LG` relocation, each one step before patching,
at concrete inputs. -/
theorem C2_relocation_displacement_witness :
    (0 : Int) ≤ (demoLinked.sections.getD 0 (emptySection 0)).buf 1 ∧
    encStep true demoLinked 0 1 1 [0x14000000] [] =
      (match patchrel true (demoLinked.actionlist.getD 1 0)
          (bufRead demoLinked
              ((demoLinked.sections.getD 0 (emptySection 0)).buf 1).toNat -
            (4 * ([0x14000000] : List Nat).length : Int) + 4) 1
          [0x14000000] with
       | .ok out1 => EncStepRes.cont 2 2 out1 []
       | .error st => EncStepRes.err st) ∧
    (0 : Int) ≤ (relLGDemo.sections.getD 0 (emptySection 0)).buf 1 ∧
    encStep true relLGDemo 0 1 1 [0x14000000] [] =
      (match patchrel true (relLGDemo.actionlist.getD 1 0)
          (bufRead relLGDemo
              ((relLGDemo.sections.getD 0 (emptySection 0)).buf 1).toNat -
            (4 * ([0x14000000] : List Nat).length : Int) + 4) 1
          [0x14000000] with
       | .ok out1 => EncStepRes.cont 2 2 out1 []
       | .error st => EncStepRes.err st) :=
  ⟨by decide,
   C2_relocation_displacement.1 true demoLinked 0 1 1 [0x14000000] []
     (by decide) (by decide),
   by decide,
   C2_relocation_displacement.2.1 true relLGDemo 0 1 1 [0x14000000] []
     (by decide) (by decide)⟩


theorem find?_ext {α : Type} (p q : α → Bool) :
    ∀ l : List α, (∀ x ∈ l, p x = q x) → l.find? p = l.find? q := by
  intro l
  induction l with
  | nil => intro _; rfl
  | cons a rest ih =>
    intro h
    rw [List.find?_cons, List.find?_cons, h a (List.mem_cons_self a rest)]
    cases q a with
    | true => rfl
    | false => exact ih fun x hx => h x (List.mem_cons_of_mem a hx)

theorem getD_set_ne (l : List Int) (a : Nat) (j : Nat) (hne : a ≠ j) :
    (l.set a 0).getD j 0 = l.getD j 0 := by
  rw [List.getD_eq_getElem?_getD, List.getD_eq_getElem?_getD,
    List.getElem?_set_ne hne]

/-- The local-label scan reports `DASM_S_UNDEF_LG | i` for the first
pending (referenced-but-undefined) index of `l`, and leaves the status
alone when none is pending. -/
theorem checkstepLocals_status (l : List Nat) :
    ∀ D : dasm_State, l.Nodup →
      (checkstepLocals l D).status =
        (match l.find? (fun j => D.lglabels.getD j 0 > 0) with
         | some i => DASM_S_UNDEF_LG ||| i
         | none => D.status) := by
  induction l with
  | nil => intro D _; rfl
  | cons a rest ih =>
    intro D hnd
    rw [checkstepLocals, List.find?_cons]
    by_cases ha : D.lglabels.getD a 0 > 0
    · rw [if_pos ha, show (decide (D.lglabels.getD a 0 > 0)) = true
        from decide_eq_true ha]
    · rw [if_neg ha, show (decide (D.lglabels.getD a 0 > 0)) = false
        from decide_eq_false ha]
      rw [ih _ (List.Nodup.of_cons hnd)]
      have hfq : rest.find?
          (fun j => ({D with lglabels := D.lglabels.set a 0} :
            dasm_State).lglabels.getD j 0 > 0) =
          rest.find? (fun j => D.lglabels.getD j 0 > 0) := by
        apply find?_ext
        intro x hx
        have hax : a ≠ x := fun he =>
          (List.nodup_cons.mp hnd).1 (he ▸ hx)
        dsimp only
        rw [getD_set_ne _ _ _ hax]
      rw [hfq]

/-- C5 (amended): Pass 2's status checks only PC labels: with
`DASM_CHECKS` on, `dasm_link` returns a sticky earlier error as is,
else `DASM_S_UNDEF_PC | pc` for the first referenced-but-undefined PC
label, else `DASM_S_OK` — regardless of the `lglabels` slots, so a
referenced-but-undefined *local* label does NOT fail `dasm_link`.  Such
locals are only reported by the separate `dasm_checkstep` scan, whose
local pass returns `DASM_S_UNDEF_LG | i` for the first pending local
index `i` of `1..9`. -/
theorem C5_link_undefined_labels (D : dasm_State) :
    (dasm_link true D).1 =
      (if D.status = DASM_S_OK then
         match D.pclabels.findIdx? (fun v => v > 0) with
         | some pc => DASM_S_UNDEF_PC ||| pc
         | none => DASM_S_OK
       else D.status) ∧
    (checkstepLocals [1, 2, 3, 4, 5, 6, 7, 8, 9] D).status =
      (match [1, 2, 3, 4, 5, 6, 7, 8, 9].find?
          (fun j => D.lglabels.getD j 0 > 0) with
       | some i => DASM_S_UNDEF_LG ||| i
       | none => D.status) := by
  constructor
  · rw [dasm_link]
    by_cases hs : D.status = DASM_S_OK
    · rw [if_neg (fun hc => hc.2 hs), if_pos hs]
      cases hfi : D.pclabels.findIdx? (fun v => v > 0) with
      | some pc => rw [if_pos rfl]
      | none => rw [if_pos rfl]
    · rw [if_pos ⟨rfl, hs⟩, if_neg hs]
  · exact checkstepLocals_status _ D (by decide)

def C5D : dasm_State :=
  applyPuts true (dasm_setup 1 [0x14000000, (5 <<< 16) ||| 0x5000 ||| 1, 0] 0 0)
    [(0, [])]

/-- C5 counterexample to the claim as stated: after a Pass-1 stream that
emits a `DASM_REL_LG` reference to local label 1 which is never
defined, `dasm_link` (checked build) still returns `DASM_S_OK` even
though the local slot holds a pending chain; only `dasm_checkstep`
reports `DASM_S_UNDEF_LG | 1`. -/
theorem C5_link_undefined_labels_counterexample :
    C5D.status = DASM_S_OK ∧
    C5D.lglabels.getD 1 0 > 0 ∧
    (dasm_link true C5D).1 = DASM_S_OK ∧
    (dasm_checkstep (dasm_link true C5D).2.1 (-1)).status =
      DASM_S_UNDEF_LG ||| 1 := by
  refine ⟨by decide, by decide, by decide, by decide⟩


/-- The two-section action list: the `demoActions` templates plus a
`DASM_SECTION 1` switch. -/
def al6 : List Nat :=
  [0x14000000, (7 <<< 16) ||| 0x5000, 0, 0xd503201f, 0, 8 <<< 16, 0,
   (1 <<< 16) ||| 1, 0]

/-- A `NOP` in section 0, then a PC-label definition and a branch to it
in section 1, whose link base is 4 bytes. -/
def C6D : dasm_State :=
  applyPuts true (dasm_setup 2 al6 0 1) [(3, []), (7, []), (5, [0]), (0, [0])]

def C6L1 : dasm_State := (dasm_link true C6D).2.1

def C6L2 : dasm_State := (dasm_link true C6L1).2.1

/-- C6 (amended): Pass 2 is not read-only — each `DASM_LABEL_PC` /
`DASM_LABEL_LG` step rewrites the label cell to its old value plus the
running section base (`b[pos++] += ofs`), so running Pass 2 twice adds
the base twice and re-running Pass 2 + Pass 3 is byte-identical only
when every base re-added is zero.  That holds in the single-section
demo (conjuncts (iii)/(iv): the second run reproduces the first run's
words and `DASM_S_OK`), but not in general (see the two-section
counterexample). -/
theorem C6_relink_amended :
    (∀ (al : List Nat) (D : dasm_State) (p pos : Nat) (ofs : Int),
      (al.getD p 0) >>> 16 = 8 →
      linkStep al D p pos ofs =
        LinkStepRes.cont (bufWrite D pos (bufRead D pos + ofs)) (p + 1)
          (pos + 1) ofs) ∧
    (∀ (al : List Nat) (D : dasm_State) (p pos : Nat) (ofs : Int),
      (al.getD p 0) >>> 16 = 6 →
      linkStep al D p pos ofs =
        LinkStepRes.cont (bufWrite D pos (bufRead D pos + ofs)) (p + 1)
          (pos + 1) ofs) ∧
    (dasm_encode true (dasm_link true demoLinked).2.1).2.1 =
      (dasm_encode true demoLinked).2.1 ∧
    (dasm_encode true (dasm_link true demoLinked).2.1).1 = DASM_S_OK := by
  refine ⟨?_, ?_, by decide, by decide⟩
  · intro al D p pos ofs hact
    unfold linkStep
    dsimp only
    rw [hact]
    rw [if_neg (by norm_num [DASM__MAX])]
  · intro al D p pos ofs hact
    unfold linkStep
    dsimp only
    rw [hact]
    rw [if_neg (by norm_num [DASM__MAX])]

/-- C6 counterexample to the claim as stated: in the two-section
program `C6D` the first Pass 2 + Pass 3 emits the branch word
`0x14000000` (label resolved to byte 4, displacement 0), but a second
Pass 2 adds section 1's base again (label cell 4 → 8) and the second
Pass 3 emits `0x14000001` — the output is not byte-identical even
though both runs return `DASM_S_OK`. -/
theorem C6_relink_counterexample :
    (dasm_link true C6D).1 = DASM_S_OK ∧
    (dasm_encode true C6L1) = (DASM_S_OK, [0xd503201f, 0x14000000], []) ∧
    (dasm_link true C6L1).1 = DASM_S_OK ∧
    (dasm_encode true C6L2) = (DASM_S_OK, [0xd503201f, 0x14000001], []) ∧
    (dasm_encode true C6L2).2.1 ≠ (dasm_encode true C6L1).2.1 := by
  refine ⟨by decide, by decide, by decide, by decide, by decide⟩


/-- C7: the final consistency check of Pass 3.  Whenever the section
walk itself completes (`encodeAll` succeeds, in either build), the
returned status is `DASM_S_PHASE` exactly when the write cursor
(4 bytes per emitted word) misses `base + codesize` as computed by
Pass 2, and `DASM_S_OK` exactly when it lands there; for the correctly
linked demo program the cursor does land there and the status is
`DASM_S_OK`. -/
theorem C7_encode_phase_check :
    (∀ (checks : Bool) (D : dasm_State) (out : List Nat)
      (gout : List (Nat × Int)),
      encodeAll checks D = .ok (out, gout) →
      (((dasm_encode checks D).1 = DASM_S_PHASE ↔
        D.codesize ≠ (4 * (out.length : Int))) ∧
       ((dasm_encode checks D).1 = DASM_S_OK ↔
        D.codesize = (4 * (out.length : Int))))) ∧
    (dasm_encode true demoLinked).1 = DASM_S_OK ∧
    demoLinked.codesize =
      (4 * ((dasm_encode true demoLinked).2.1.length : Int)) := by
  refine ⟨?_, by decide, by decide⟩
  intro checks D out gout hr
  unfold dasm_encode
  rw [hr]
  dsimp only
  by_cases hc : D.codesize = (4 * (out.length : Int))
  · rw [if_neg (by omega)]
    constructor
    · constructor
      · intro hp; exact absurd hp (by decide)
      · intro hne; exact absurd hc hne
    · exact ⟨fun _ => hc, fun _ => rfl⟩
  · rw [if_pos (by omega)]
    constructor
    · exact ⟨fun _ => hc, fun _ => rfl⟩
    · constructor
      · intro hp; exact absurd hp (by decide)
      · intro he; exact absurd he hc

/-- C7 witness: the demo program's section walk completes with five
words and 20 = codesize bytes, so the phase check passes. -/
theorem C7_encode_phase_check_witness :
    encodeAll true demoLinked =
      .ok ([0x14000000, 0xd503201f, 0xd503201f, 0xd503201f, 0x14000004],
        []) ∧
    ((dasm_encode true demoLinked).1 = DASM_S_OK ↔
      demoLinked.codesize =
        (4 * (([0x14000000, 0xd503201f, 0xd503201f, 0xd503201f,
          0x14000004] : List Nat).length : Int))) :=
  ⟨rfl,
   (C7_encode_phase_check.1 true demoLinked
     [0x14000000, 0xd503201f, 0xd503201f, 0xd503201f, 0x14000004] []
     rfl).2⟩

end DynasmA64
